import Mathlib

/-!
# Verification of the transcript-combobulator core

Shallow embedding of the transcript merge pipeline (`src/combine.py`), the
timestamp formatting code (`src/whisper.py`), the segment-transcription control
flow (`src/whisper.py`, `src/transcribe.py`, `tools/process_single_file.py`)
and the batch orchestrator (`tools/process_batch.py`).

Python strings are modelled as `List Char` (`Str`).  Python floats are
modelled as `ℚ`: every numeric value the embedded code manipulates is an
exact multiple of `1/1000` or `1/1000000`, far inside the range where IEEE
double rounding could alter any comparison or any of the integer quantities
derived from them, so the rational model computes exactly the same results.
Python's `re.search` (used only for `/…/`-delimited skip filters) is modelled
as an oracle parameter `search : Str → Str → Bool`.
-/

namespace Combobulator

/-- Python strings, modelled as lists of characters. -/
abbrev Str := List Char

/-- Python's `\s`-style whitespace test used by `str.strip` and `re.sub(r'\s+', …)`
(for the ASCII characters these files actually contain the two notions agree). -/
def isSpace (c : Char) : Bool := c.isWhitespace

/-- Python `str.strip()`: drop whitespace from both ends. -/
def pstrip (l : Str) : Str :=
  ((l.dropWhile isSpace).reverse.dropWhile isSpace).reverse

/-- Membership in Python's `string.punctuation`
(`!"#$%&'()*+,-./:;<=>?@[\]^_`{|}~`, i.e. ASCII 33–47, 58–64, 91–96, 123–126). -/
def isPunct (c : Char) : Bool :=
  (33 ≤ c.toNat ∧ c.toNat ≤ 47) ∨ (58 ≤ c.toNat ∧ c.toNat ≤ 64) ∨
  (91 ≤ c.toNat ∧ c.toNat ≤ 96) ∨ (123 ≤ c.toNat ∧ c.toNat ≤ 126)

/-- `re.sub(r'\s+', ' ', text)`: replace every maximal run of whitespace by a
single space.  The `Bool` flag records whether we are inside a whitespace run. -/
def collapseWsAux : Bool → Str → Str
  | _, [] => []
  | true, c :: rest =>
      if isSpace c then collapseWsAux true rest else c :: collapseWsAux false rest
  | false, c :: rest =>
      if isSpace c then ' ' :: collapseWsAux true rest else c :: collapseWsAux false rest

def collapseWs (l : Str) : Str := collapseWsAux false l

/-- `combine.normalize_content`: strip, lowercase, delete `string.punctuation`
characters, then collapse whitespace runs to single spaces ("aggressive
normalization" in the source's words). -/
def normalize_content (text : Str) : Str :=
  collapseWs (((pstrip text).map Char.toLower).filter (fun c => ¬ isPunct c))

/-- `combine.should_skip_content`.  A filter that starts and ends with `/` is a
regex pattern handed to `re.search` (the `search` oracle); any other filter is a
literal substring test (Python `in`). -/
def should_skip_content (search : Str → Str → Bool)
    (content : Str) (skip_filters : List Str) : Bool :=
  skip_filters.any fun filter_pattern =>
    if filter_pattern.head? = some '/' ∧ filter_pattern.getLast? = some '/' then
      search (filter_pattern.drop 1).dropLast content
    else
      decide (filter_pattern <:+: content)

/-- Python `str.split(sep)` for a single-character separator: always returns at
least one (possibly empty) piece. -/
def splitOnChar (c : Char) : Str → List Str
  | [] => [[]]
  | x :: rest =>
      if x = c then [] :: splitOnChar c rest
      else
        match splitOnChar c rest with
        | [] => [[x]]
        | h :: t => (x :: h) :: t

/-- Python `int(s)` restricted to all-digit strings (the only shape the
embedded call sites produce: the regex groups feeding
`parse_timestamp_to_seconds` are `\d`-matched); other strings raise, modelled
as `none`. -/
def parseDigits (l : Str) : Option Nat :=
  if l = [] ∨ l.any (fun c => ¬ c.isDigit) then none
  else some (l.foldl (fun n c => 10 * n + (c.toNat - 48)) 0)

/-- `combine.parse_timestamp_to_seconds`: split on `:`, split the seconds field
on `.`, and return `hours*3600 + minutes*60 + seconds + milliseconds/1000`.
Like the Python (which indexes `parts[0..2]`), extra `:`-separated pieces are
ignored; missing pieces or non-numeric pieces raise (`none`). -/
def parse_timestamp_to_seconds (timestamp : Str) : Option ℚ :=
  match splitOnChar ':' timestamp with
  | p0 :: p1 :: p2 :: _ =>
      match parseDigits p0, parseDigits p1 with
      | some hours, some minutes =>
          match splitOnChar '.' p2 with
          | s0 :: rest =>
              match parseDigits s0 with
              | some seconds =>
                  match rest with
                  | [] => some ((hours * 3600 + minutes * 60 + seconds : ℚ))
                  | m0 :: _ =>
                      match parseDigits m0 with
                      | some milliseconds =>
                          some ((hours * 3600 + minutes * 60 + seconds : ℚ)
                            + (milliseconds : ℚ) / 1000)
                      | none => none
              | none => none
          | [] => none
      | _, _ => none
  | _ => none

/-- The character for a single decimal digit. -/
def digitChar (d : Nat) : Char := Char.ofNat (48 + d)

/-- Python `f"{n:02d}"` for `0 ≤ n < 100` (the only range the embedded code
feeds it: the hour/minute/second fields are reduced below their moduli). -/
def pad2 (n : Nat) : Str := [digitChar (n / 10), digitChar (n % 10)]

/-- Python `f"{n:03d}"` for `0 ≤ n < 1000`. -/
def pad3 (n : Nat) : Str :=
  [digitChar (n / 100), digitChar (n / 10 % 10), digitChar (n % 10)]

/-- `whisper.format_timestamp`: `timedelta(seconds=x)` normalizes to whole
microseconds (Python rounds ties to even; every input produced in this
development is an exact multiple of a microsecond, so no tie ever occurs and
`⌊x·10⁶ + 1/2⌋` computes the same value), then the `days` component is
discarded — `td.seconds` is reduced modulo 86400 — and the pieces are printed
as `HH:MM:SS.mmm`.  (Python's `//`/`%` are floor division; Lean's `Int`
division is Euclidean; the two agree whenever the divisor is positive, as all
divisors here are.) -/
def format_timestamp (x : ℚ) : Str :=
  let us : ℤ := Int.floor (x * 1000000 + 1 / 2)
  let tdSeconds : ℤ := us / 1000000 % 86400
  let microseconds : ℤ := us % 1000000
  let hours : ℤ := tdSeconds / 3600
  let minutes : ℤ := tdSeconds % 3600 / 60
  let seconds : ℤ := tdSeconds % 60
  let milliseconds : ℤ := microseconds / 1000
  pad2 hours.toNat ++ ':' :: pad2 minutes.toNat ++ ':' :: pad2 seconds.toNat
    ++ '.' :: pad3 milliseconds.toNat

/-- The canonical text of a `HH:MM:SS.mmm` timestamp. -/
def mkTimestamp (h m s ms : Nat) : Str :=
  pad2 h ++ ':' :: pad2 m ++ ':' :: pad2 s ++ '.' :: pad3 ms

/-- `combine.TranscriptEntry`. -/
structure TranscriptEntry where
  timestamp : Str
  start_time : ℚ
  end_time : ℚ
  character : Str
  content : Str
deriving DecidableEq, Repr

/-- `combine.TranscriptConfig`. -/
structure TranscriptConfig where
  player_name : Str
  role : Str
  character_name : Str
  character_description : Str
  transcript_path : Str
deriving DecidableEq, Repr

/-- One `\d{2}:\d{2}:\d{2}\.\d{3}` group of `combine.py`'s `time_regex`:
consume exactly that shape from the front, returning the matched text and the
remainder. -/
def matchTs : Str → Option (Str × Str)
  | d1 :: d2 :: c1 :: d3 :: d4 :: c2 :: d5 :: d6 :: c3 :: d7 :: d8 :: d9 :: rest =>
      if d1.isDigit ∧ d2.isDigit ∧ c1 = ':' ∧ d3.isDigit ∧ d4.isDigit ∧ c2 = ':'
          ∧ d5.isDigit ∧ d6.isDigit ∧ c3 = '.' ∧ d7.isDigit ∧ d8.isDigit ∧ d9.isDigit then
        some ([d1, d2, c1, d3, d4, c2, d5, d6, c3, d7, d8, d9], rest)
      else none
  | _ => none

/-- `combine.py`'s `time_regex.match(line)`: two timestamp groups joined by
`\s*-->\s*`; being `re.match` (not `fullmatch`), anything may follow. -/
def matchTimeRegex (l : Str) : Option (Str × Str) :=
  match matchTs l with
  | none => none
  | some (g1, r1) =>
      match r1.dropWhile isSpace with
      | '-' :: '-' :: '>' :: r3 =>
          match matchTs (r3.dropWhile isSpace) with
          | none => none
          | some (g2, _) => some (g1, g2)
      | _ => none

/-- Python `' '.join(content_lines)`. -/
def joinSpace (ls : List Str) : Str := (ls.intersperse [' ']).flatten

/-- The `while i < len(lines)` loop of `combine.parse_vtt_file`, with the two
mutable loop variables `last_content` and `unique_contents` as arguments.  On a
timestamp match the body lines are the following non-blank (after strip) lines,
stripped; the block is skipped if it matches a filter, is a duplicate under the
`dedupe` strategy, or normalizes to the empty string; `last_content` and
`unique_contents` advance only when an entry is kept, exactly as in the source.
`parse_timestamp_to_seconds` always succeeds on a regex-matched group, so the
`getD 0` default is never taken.  Recursion is on a fuel argument so that the
function is structurally recursive (hence kernel-computable); every step
consumes at least one line, so a fuel of the line count — which
`parse_vtt_content` supplies — never runs out. -/
def parseVttLoop (search : Str → Str → Bool) (character_name : Str) (dedupe : Str)
    (skip_filters : List Str) :
    Nat → List Str → Option Str → List Str → List TranscriptEntry
  | 0, _, _, _ => []
  | _ + 1, [], _, _ => []
  | fuel + 1, line :: rest, last_content, unique_contents =>
      match matchTimeRegex (pstrip line) with
      | none => parseVttLoop search character_name dedupe skip_filters fuel rest
          last_content unique_contents
      | some (start_time_str, end_time_str) =>
          let content_lines := (rest.takeWhile fun ln => pstrip ln ≠ []).map pstrip
          let rest2 := rest.dropWhile fun ln => pstrip ln ≠ []
          if content_lines = [] then
            parseVttLoop search character_name dedupe skip_filters fuel rest2
              last_content unique_contents
          else
            let normalized_content := normalize_content (joinSpace content_lines)
            if should_skip_content search normalized_content skip_filters then
              parseVttLoop search character_name dedupe skip_filters fuel rest2
                last_content unique_contents
            else
              let skip_duplicate :=
                (dedupe = ("consecutive").toList ∧ last_content = some normalized_content)
                ∨ (dedupe = ("unique").toList ∧ normalized_content ∈ unique_contents)
              if ¬ skip_duplicate ∧ normalized_content ≠ [] then
                { timestamp := start_time_str ++ (" --> ").toList ++ end_time_str
                  start_time := (parse_timestamp_to_seconds start_time_str).getD 0
                  end_time := (parse_timestamp_to_seconds end_time_str).getD 0
                  character := character_name
                  content := normalized_content } ::
                  parseVttLoop search character_name dedupe skip_filters fuel rest2
                    (some normalized_content) (normalized_content :: unique_contents)
              else
                parseVttLoop search character_name dedupe skip_filters fuel rest2
                  last_content unique_contents

/-- The pure body of `combine.parse_vtt_file`: the scan of an already-read
file content (`content.split('\n')` then the parse loop, starting with
`last_content = None` and an empty `unique_contents` set). -/
def parse_vtt_content (search : Str → Str → Bool) (content : Str)
    (character_name : Str) (dedupe : Str) (skip_filters : List Str) :
    List TranscriptEntry :=
  parseVttLoop search character_name dedupe skip_filters
    (splitOnChar '\n' content).length (splitOnChar '\n' content) none []

/-- A filesystem snapshot: an association of paths to file contents. -/
def FS := List (Str × Str)

/-- Reading a file from the snapshot; `none` models `FileNotFoundError`. -/
def fsRead (fs : FS) (path : Str) : Option Str :=
  (fs.find? fun e => e.1 = path).map Prod.snd

/-- `combine.parse_vtt_file`: read the file (a missing file raises
`CombineError`, Python's `open` happening before any parsing) and scan it. -/
def parse_vtt_file (search : Str → Str → Bool) (fs : FS) (file_path : Str)
    (character_name : Str) (dedupe : Str) (skip_filters : List Str) :
    Except Str (List TranscriptEntry) :=
  match fsRead fs file_path with
  | none => .error (("Transcript file not found: ").toList ++ file_path)
  | some content =>
      .ok (parse_vtt_content search content character_name dedupe skip_filters)

/-- The parse loop of `combine.combine_transcripts`: each config's file is
parsed in turn and the first failure propagates (the `CombineError` raised by
`parse_vtt_file` aborts `combine_transcripts` before anything is written). -/
def parseAllConfigs (search : Str → Str → Bool) (fs : FS) (dedupe : Str)
    (skip_filters : List Str) :
    List TranscriptConfig → Except Str (List TranscriptEntry)
  | [] => .ok []
  | c :: rest =>
      match parse_vtt_file search fs c.transcript_path c.character_name dedupe skip_filters with
      | .error e => .error e
      | .ok entries =>
          match parseAllConfigs search fs dedupe skip_filters rest with
          | .error e => .error e
          | .ok more => .ok (entries ++ more)

/-- `all_entries.sort(key=lambda x: x.start_time)`: Python's sort is stable,
modelled by `List.mergeSort`. -/
def sortByStart (l : List TranscriptEntry) : List TranscriptEntry :=
  l.mergeSort fun a b => decide (a.start_time ≤ b.start_time)

/-- The dedup key used by the global dedup pass. -/
def entryKey (e : TranscriptEntry) : Str × Str :=
  (e.character, normalize_content e.content)

/-- The global dedup loop of `combine.combine_transcripts`: keep an entry iff
its `(character, normalized content)` key has not been seen yet. -/
def globalDedup : List TranscriptEntry → List (Str × Str) → List TranscriptEntry
  | [], _ => []
  | e :: rest, seen =>
      if entryKey e ∈ seen then globalDedup rest seen
      else e :: globalDedup rest (entryKey e :: seen)

/-- One summary line: for the `DM` role the role replaces the character name. -/
def summaryLine (c : TranscriptConfig) : Str :=
  if c.role = ("DM").toList then
    c.player_name ++ (" - ").toList ++ c.role ++ (" - ").toList ++ c.character_description
  else
    c.player_name ++ (" - ").toList ++ c.character_name ++ (" - ").toList
      ++ c.character_description

/-- First-occurrence dedup of summary lines (the `seen` set of the source). -/
def dedupFirst : List Str → List Str → List Str
  | [], _ => []
  | l :: rest, seen =>
      if l ∈ seen then dedupFirst rest seen else l :: dedupFirst rest (l :: seen)

/-- The summary block: `"Summary:"` then one deduplicated line per config,
joined by newlines. -/
def mkSummary (configs : List TranscriptConfig) : Str :=
  ((("Summary:").toList :: dedupFirst (configs.map summaryLine) []).intersperse
    ['\n']).flatten

/-- The slice of entries written into chunk `idx`:
`deduped[idx*size : idx*size+size]`, except that the final chunk also takes the
remainder. -/
def chunkSlice (l : List TranscriptEntry) (size actual idx : Nat) :
    List TranscriptEntry :=
  if idx < actual - 1 then (l.drop (idx * size)).take size else l.drop (idx * size)

/-- `pathlib` suffix splitting: split off the extension (the part of the last
component from its last dot), so that `with_name(f"{stem}-{i}{suffix}")`
becomes `stem ++ "-i" ++ suffix`. -/
def pathSplitExt (p : Str) : Str × Str :=
  let revTail := p.reverse.takeWhile fun c => c ≠ '.' ∧ c ≠ '/'
  match p.reverse.drop revTail.length with
  | '.' :: more => (more.reverse, '.' :: revTail.reverse)
  | _ => (p, [])

/-- The output path of chunk `idx`: the requested path when a single chunk is
written, otherwise `{stem}-{idx+1}{suffix}`. -/
def chunkPath (output_path : Str) (actual idx : Nat) : Str :=
  if actual = 1 then output_path
  else
    let se := pathSplitExt output_path
    se.1 ++ '-' :: Nat.toDigits 10 (idx + 1) ++ se.2

/-- One output line of an entry: `"{character}: {content}"`, optionally
suffixed `" [{timestamp}]"`, newline-terminated. -/
def renderEntry (include_timestamps : Bool) (e : TranscriptEntry) : Str :=
  e.character ++ (": ").toList ++ e.content
    ++ (if include_timestamps then ' ' :: '[' :: e.timestamp ++ [']'] else [])
    ++ ['\n']

/-- The text written into one chunk file: summary, blank line, entry lines. -/
def renderChunk (summary : Str) (include_timestamps : Bool)
    (entries : List TranscriptEntry) : Str :=
  summary ++ ['\n', '\n'] ++ (entries.map (renderEntry include_timestamps)).flatten

/-- `combine.combine_transcripts`.  The first component is the list of files
written, in order (each a `(path, text)` pair); the second is the returned list
of output paths, or the raised `CombineError`.  All parsing precedes all
writing, as in the source, so a parse failure leaves the write list empty.
(When `chunks = 0` and at least 5 entries survive the Python raises
`ZeroDivisionError`; no claim exercises that input.) -/
def combine_transcripts (search : Str → Str → Bool) (fs : FS)
    (transcript_configs : List TranscriptConfig) (output_path : Str)
    (dedupe : Str) (skip_filters : List Str) (include_timestamps : Bool)
    (chunks : Nat) : List (Str × Str) × Except Str (List Str) :=
  match parseAllConfigs search fs dedupe skip_filters transcript_configs with
  | .error e => ([], .error e)
  | .ok all_entries =>
      let deduped := globalDedup (sortByStart all_entries) []
      let summary := mkSummary transcript_configs
      let actual_chunks := if deduped.length < chunks ∨ deduped.length < 5 then 1 else chunks
      let chunk_size := deduped.length / actual_chunks
      let files := (List.range actual_chunks).map fun idx =>
        (chunkPath output_path actual_chunks idx,
          renderChunk summary include_timestamps
            (chunkSlice deduped chunk_size actual_chunks idx))
      (files, .ok (files.map Prod.fst))

/-! ## Environment-driven combine (`combine.combine_transcripts_from_env`) -/

/-- A process environment: association of variable names to values. -/
def Env := List (Str × Str)

/-- `os.getenv(key, default)`. -/
def getenvD (env : Env) (key default : Str) : Str :=
  match env.find? fun e => e.1 = key with
  | some e => e.2
  | none => default

/-- `str.strip(chars)` for an arbitrary character class. -/
def stripChars (p : Char → Bool) (l : Str) : Str :=
  ((l.dropWhile p).reverse.dropWhile p).reverse

/-- The `.strip().strip('"')` dance applied to every environment value. -/
def stripQuotes (l : Str) : Str := stripChars (fun c => c = '"') (pstrip l)

/-- The value of `TRANSCRIPT_{i}_{field}`, stripped. -/
def getTranscriptVar (env : Env) (i : Nat) (field : Str) : Str :=
  stripQuotes (getenvD env
    ((("TRANSCRIPT_").toList ++ Nat.toDigits 10 i) ++ '_' :: field) [])

/-- The metadata stored for one username. -/
structure SpeakerMeta where
  player_name : Str
  role : Str
  character_name : Str
  character_description : Str
deriving DecidableEq, Repr

/-- Python `dict` assignment `d[k] = v` on an insertion-ordered association
list: overwrite in place if the key exists, else append. -/
def dictInsert (k : Str) (v : SpeakerMeta) :
    List (Str × SpeakerMeta) → List (Str × SpeakerMeta)
  | [] => [(k, v)]
  | e :: rest => if e.1 = k then (k, v) :: rest else e :: dictInsert k v rest

/-- The `while True` scan over `TRANSCRIPT_1_USERNAME, TRANSCRIPT_2_USERNAME, …`
starting at index `i`: it stops at the first index whose username is empty;
an index whose username is set but whose other four fields are not all set is
skipped with a warning (contributing nothing) without stopping the scan.
The Python loop is unbounded but always terminates because the finite
environment leaves some index unset; `fuel` bounds the iterations, and every
theorem below is stated past the first unset index, where the result no longer
depends on `fuel`. -/
def buildUsernameMapping (env : Env) : Nat → Nat → List (Str × SpeakerMeta) →
    List (Str × SpeakerMeta)
  | 0, _, acc => acc
  | fuel + 1, i, acc =>
      let username := getTranscriptVar env i (("USERNAME").toList)
      if username = [] then acc
      else
        let player_name := getTranscriptVar env i (("PLAYER").toList)
        let role := getTranscriptVar env i (("ROLE").toList)
        let character_name := getTranscriptVar env i (("CHARACTER").toList)
        let character_description := getTranscriptVar env i (("DESCRIPTION").toList)
        let acc2 :=
          if player_name ≠ [] ∧ role ≠ [] ∧ character_name ≠ [] ∧
              character_description ≠ [] then
            dictInsert username
              { player_name := player_name, role := role,
                character_name := character_name,
                character_description := character_description } acc
          else acc
        buildUsernameMapping env fuel (i + 1) acc2

/-- One discovered VTT file: its parent directory's name and its path. -/
structure VttFile where
  parent : Str
  path : Str
deriving DecidableEq, Repr

/-- The config-building loop of `combine_transcripts_from_env`: for each VTT
file, the usernames appearing as substrings of its parent directory name are
collected; zero matches records the directory as unmapped (checked after the
loop), more than one match raises `CombineError` immediately, exactly one
yields a `TranscriptConfig`. -/
def buildConfigs (mapping : List (Str × SpeakerMeta)) :
    List VttFile → Except Str (List TranscriptConfig × List Str)
  | [] => .ok ([], [])
  | v :: rest =>
      let matched := mapping.filter fun m => decide (m.1 <:+: v.parent)
      if matched.length = 0 then
        match buildConfigs mapping rest with
        | .error e => .error e
        | .ok (cs, un) => .ok (cs, v.parent :: un)
      else if matched.length > 1 then
        .error (("Ambiguous username match for directory ").toList ++ v.parent)
      else
        match matched with
        | [] => .error []
        | m :: _ =>
            match buildConfigs mapping rest with
            | .error e => .error e
            | .ok (cs, un) =>
                .ok ({ player_name := m.2.player_name, role := m.2.role,
                       character_name := m.2.character_name,
                       character_description := m.2.character_description,
                       transcript_path := v.path } :: cs, un)

/-- `combine.combine_transcripts_from_env`.  Directory discovery is modelled by
passing the glob result (`vtt_files`) and the derived output location
(`output_dir`, `session_name`) explicitly; the returned pair is, as for
`combine_transcripts`, the written files and the result.  Every raising path
returns an empty write list, matching the source where the only writes happen
inside the final `combine_transcripts` call.  (`CHUNKS` that fails `int()`
raises an uncaught `ValueError` in Python; no claim exercises it and the model
falls back to the default.) -/
def combine_transcripts_from_env (search : Str → Str → Bool) (env : Env)
    (fuel : Nat) (fs : FS) (vtt_files : List VttFile)
    (output_dir session_name : Str) : List (Str × Str) × Except Str (List Str) :=
  if vtt_files = [] then ([], .error (("No VTT files found").toList))
  else
    let username_mapping := buildUsernameMapping env fuel 1 []
    if username_mapping = [] then
      ([], .error (("No transcript mappings found").toList))
    else
      match buildConfigs username_mapping vtt_files with
      | .error e => ([], .error e)
      | .ok (transcript_configs, unmapped_dirs) =>
          if unmapped_dirs ≠ [] then
            ([], .error (("No mapping found for directories").toList))
          else if transcript_configs = [] then
            ([], .error (("No transcript configurations created").toList))
          else
            let dedupe := stripQuotes (getenvD env (("DEDUPE_STRATEGY").toList)
              (("consecutive").toList))
            let include_timestamps :=
              (stripQuotes (getenvD env (("INCLUDE_TIMESTAMPS").toList)
                (("false").toList))).map Char.toLower = ("true").toList
            let skip_filters_str := stripQuotes (getenvD env
              (("SKIP_FILTERS").toList) (("[AUDIO OUT],[BLANK_AUDIO]").toList))
            let skip_filters :=
              ((splitOnChar ',' skip_filters_str).map pstrip).filter fun f => f ≠ []
            let chunks := (parseDigits (stripQuotes (getenvD env
              (("CHUNKS").toList) (("1").toList)))).getD 1
            let output_path := output_dir ++ '/' :: session_name
              ++ ("-combined.txt").toList
            combine_transcripts search fs transcript_configs output_path dedupe
              skip_filters include_timestamps chunks

/-! ## Segment transcription control flow (`whisper.py`, `transcribe.py`,
`tools/process_single_file.py`) -/

/-- One transcribed segment as returned by the speech-to-text engine
(the Python dict `{"start", "end", "text", "confidence"}`). -/
structure WhisperSeg where
  start : ℚ
  endSeconds : ℚ
  text : Str
  confidence : ℚ
deriving DecidableEq, Repr

/-- `whisper.transcribe_audio_segments`.  The speech engine
(`transcribe_segment` together with the model it runs) is the oracle
`transcriber`; an exception from it on one segment is caught, a warning is
recorded (second component), and the loop continues with the next segment; the
successes are concatenated and finally sorted by start time. -/
def transcribe_audio_segments
    (transcriber : Str × ℚ → Except Str (List WhisperSeg))
    (segments : List (Str × ℚ)) : List WhisperSeg × List Str :=
  let step := segments.foldl
    (fun acc seg =>
      match transcriber seg with
      | .ok res => (acc.1 ++ res, acc.2)
      | .error e => (acc.1, acc.2 ++ [e]))
    ([], [])
  (step.1.mergeSort fun a b => decide (a.start ≤ b.start), step.2)

/-- One entry of a VAD mapping file. -/
structure MappingSeg where
  segment_file : Str
  start_seconds : ℚ
deriving DecidableEq, Repr

/-- The transcription phase of `transcribe.transcribe_audio` (after the VAD
mapping is in hand): segment files that no longer exist are dropped with a
warning; if no segment file exists at all, `TranscriptionError` is raised.
Otherwise the source calls
`transcribe_audio_segments(segments_to_transcribe, output_vtt,
progress_callback=progress_callback)`, but `whisper.transcribe_audio_segments`
accepts only `(segments, output_path=None)` — no `progress_callback` keyword —
so the call itself raises `TypeError` before the callee's body (and hence the
`transcriber` oracle) ever runs; the surrounding `except Exception` re-raises
it as `TranscriptionError`.  The `transcriber` parameter is kept because the
call site hands the engine over, but no input reaches it on this path. -/
def transcribe_audio_phase
    (transcriber : Str × ℚ → Except Str (List WhisperSeg))
    (segment_exists : Str → Bool) (mapping : List MappingSeg) :
    Except Str (List WhisperSeg × List Str) :=
  let segments_to_transcribe :=
    (mapping.filter fun s => segment_exists s.segment_file).map
      fun s => (s.segment_file, s.start_seconds)
  if segments_to_transcribe = [] then
    .error (("No valid segments found").toList)
  else
    .error (("transcribe_audio_segments() got an unexpected keyword argument progress_callback").toList)

/-- The terminal status `tools/process_single_file.main` records for a file
after the transcription step: `"done"` when `transcribe_segments` returns,
`"error"` when it raises (conversion and VAD, which precede the cited region,
are abstracted away). -/
def singleFileStatus (transcriber : Str × ℚ → Except Str (List WhisperSeg))
    (segment_exists : Str → Bool) (mapping : List MappingSeg) : Str :=
  match transcribe_audio_phase transcriber segment_exists mapping with
  | .ok _ => ("done").toList
  | .error _ => ("error").toList

/-! ## Batch orchestrator (`tools/process_batch.py`) -/

/-- `Path(file_path).name`: the final path component. -/
def baseName (p : Str) : Str := (p.reverse.takeWhile fun c => c ≠ '/').reverse

/-- `process_batch._worker`: the whole per-file pipeline (the oracle
`pipeline`) runs under a `try`; any exception is converted into a
`(filename, "error", message)` tuple, success into `(filename, "done", "")`.
No exception crosses the worker boundary: the function is total. -/
def worker (pipeline : Str → Except Str Unit) (file_path : Str) :
    Str × Str × Str :=
  match pipeline file_path with
  | .ok _ => (baseName file_path, ("done").toList, [])
  | .error e => (baseName file_path, ("error").toList, e)

/-- `process_batch.main`'s result-collection loop, with the process pool
abstracted to the per-file outcome function `pipeline` (each file is handled by
exactly one worker, and every future is consumed exactly once by the polling
loop).  Returns the final per-file statuses (`"done"` set by the worker's own
pipeline, `"error"` recorded by the orchestrator for a failed result), the
error list, and the exit code, where `combine_exit` abstracts the exit status
of the combine step that runs only when no file failed. -/
def runBatch (pipeline : Str → Except Str Unit) (files : List Str)
    (combine_exit : Nat) : List (Str × Str) × List (Str × Str) × Nat :=
  let results := files.map (worker pipeline)
  let statuses := results.map fun r => (r.1, r.2.1)
  let errors := (results.filter fun r => r.2.1 = ("error").toList).map
    fun r => (r.1, r.2.2)
  (statuses, errors, if errors ≠ [] then 1 else combine_exit)

/-- Spec-side formulation of `consecutive` dedup: drop an entry iff its
content equals the content of the immediately preceding *kept* entry
(`last` is the content of the last kept entry, threaded unchanged across
drops). -/
def destutterContent : List TranscriptEntry → Option Str → List TranscriptEntry
  | [], _ => []
  | e :: rest, last =>
      if last = some e.content then destutterContent rest last
      else e :: destutterContent rest (some e.content)

/-- Spec-side formulation of `unique` dedup: drop an entry iff its content has
already been kept once, regardless of position. -/
def uniqueContent : List TranscriptEntry → List Str → List TranscriptEntry
  | [], _ => []
  | e :: rest, seen =>
      if e.content ∈ seen then uniqueContent rest seen
      else e :: uniqueContent rest (e.content :: seen)

/-! ## Digit and split lemmas -/

theorem digitChar_isDigit {d : Nat} (h : d < 10) : (digitChar d).isDigit = true := by
  interval_cases d <;> decide

theorem digitChar_toNat {d : Nat} (h : d < 10) : (digitChar d).toNat = 48 + d := by
  interval_cases d <;> decide

theorem digitChar_ne_colon {d : Nat} (h : d < 10) : digitChar d ≠ ':' := by
  interval_cases d <;> decide

theorem digitChar_ne_dot {d : Nat} (h : d < 10) : digitChar d ≠ '.' := by
  interval_cases d <;> decide

theorem parseDigits_pad2 {n : Nat} (h : n < 100) : parseDigits (pad2 n) = some n := by
  have h1 : n / 10 < 10 := by omega
  have h2 : n % 10 < 10 := by omega
  unfold parseDigits pad2
  rw [if_neg]
  · simp only [List.foldl_cons, List.foldl_nil, digitChar_toNat h1, digitChar_toNat h2,
      Option.some.injEq]
    omega
  · simp [digitChar_isDigit h1, digitChar_isDigit h2]

theorem parseDigits_pad3 {n : Nat} (h : n < 1000) : parseDigits (pad3 n) = some n := by
  have h1 : n / 100 < 10 := by omega
  have h2 : n / 10 % 10 < 10 := by omega
  have h3 : n % 10 < 10 := by omega
  unfold parseDigits pad3
  rw [if_neg]
  · simp only [List.foldl_cons, List.foldl_nil, digitChar_toNat h1, digitChar_toNat h2,
      digitChar_toNat h3, Option.some.injEq]
    omega
  · simp [digitChar_isDigit h1, digitChar_isDigit h2, digitChar_isDigit h3]

theorem colon_not_mem_pad2 {n : Nat} (h : n < 100) : ':' ∉ pad2 n := by
  have h1 : n / 10 < 10 := by omega
  have h2 : n % 10 < 10 := by omega
  simp only [pad2, List.mem_cons, List.not_mem_nil, or_false]
  exact fun hc => hc.elim (fun e => digitChar_ne_colon h1 e.symm)
    (fun e => digitChar_ne_colon h2 e.symm)

theorem colon_not_mem_pad3 {n : Nat} (h : n < 1000) : ':' ∉ pad3 n := by
  have h1 : n / 100 < 10 := by omega
  have h2 : n / 10 % 10 < 10 := by omega
  have h3 : n % 10 < 10 := by omega
  simp only [pad3, List.mem_cons, List.not_mem_nil, or_false]
  rintro (e | e | e)
  · exact digitChar_ne_colon h1 e.symm
  · exact digitChar_ne_colon h2 e.symm
  · exact digitChar_ne_colon h3 e.symm

theorem dot_not_mem_pad2 {n : Nat} (h : n < 100) : '.' ∉ pad2 n := by
  have h1 : n / 10 < 10 := by omega
  have h2 : n % 10 < 10 := by omega
  simp only [pad2, List.mem_cons, List.not_mem_nil, or_false]
  exact fun hc => hc.elim (fun e => digitChar_ne_dot h1 e.symm)
    (fun e => digitChar_ne_dot h2 e.symm)

theorem dot_not_mem_pad3 {n : Nat} (h : n < 1000) : '.' ∉ pad3 n := by
  have h1 : n / 100 < 10 := by omega
  have h2 : n / 10 % 10 < 10 := by omega
  have h3 : n % 10 < 10 := by omega
  simp only [pad3, List.mem_cons, List.not_mem_nil, or_false]
  rintro (e | e | e)
  · exact digitChar_ne_dot h1 e.symm
  · exact digitChar_ne_dot h2 e.symm
  · exact digitChar_ne_dot h3 e.symm

theorem splitOnChar_of_not_mem {c : Char} {l : Str} (h : c ∉ l) :
    splitOnChar c l = [l] := by
  induction l with
  | nil => rfl
  | cons x rest ih =>
      have hx : ¬ x = c := fun e => h (e ▸ List.mem_cons_self x rest)
      have hr : c ∉ rest := fun e => h (List.mem_cons_of_mem x e)
      simp [splitOnChar, hx, ih hr]

theorem splitOnChar_append_cons {c : Char} {a b : Str} (h : c ∉ a) :
    splitOnChar c (a ++ c :: b) = a :: splitOnChar c b := by
  induction a with
  | nil => simp [splitOnChar]
  | cons x rest ih =>
      have hx : ¬ x = c := fun e => h (e ▸ List.mem_cons_self x rest)
      have hr : c ∉ rest := fun e => h (List.mem_cons_of_mem x e)
      simp only [List.cons_append, splitOnChar, hx, if_false, List.append_eq]
      rw [ih hr]

/-! ## Claim C5: timestamp round-trip -/

theorem parse_mkTimestamp {h m s ms : Nat} (hh : h < 100) (hm : m < 100)
    (hs : s < 100) (hms : ms < 1000) :
    parse_timestamp_to_seconds (mkTimestamp h m s ms)
      = some ((h * 3600 + m * 60 + s : ℚ) + (ms : ℚ) / 1000) := by
  have hsplit1 : splitOnChar ':' (mkTimestamp h m s ms)
      = pad2 h :: pad2 m :: [pad2 s ++ '.' :: pad3 ms] := by
    unfold mkTimestamp
    simp only [List.cons_append, List.append_assoc]
    rw [splitOnChar_append_cons (colon_not_mem_pad2 hh)]
    rw [splitOnChar_append_cons (colon_not_mem_pad2 hm)]
    rw [splitOnChar_of_not_mem]
    intro hc
    rcases List.mem_append.mp hc with hc | hc
    · exact colon_not_mem_pad2 hs hc
    · rcases List.mem_cons.mp hc with hc | hc
      · exact absurd hc (by decide)
      · exact colon_not_mem_pad3 hms hc
  have hsplit2 : splitOnChar '.' (pad2 s ++ '.' :: pad3 ms)
      = pad2 s :: [pad3 ms] := by
    rw [splitOnChar_append_cons (dot_not_mem_pad2 hs)]
    rw [splitOnChar_of_not_mem (dot_not_mem_pad3 hms)]
  unfold parse_timestamp_to_seconds
  rw [hsplit1]
  simp only [parseDigits_pad2 hh, parseDigits_pad2 hm, hsplit2,
    parseDigits_pad2 hs, parseDigits_pad3 hms]

theorem format_timestamp_of_ms (T : Nat) :
    format_timestamp ((T : ℚ) / 1000)
      = pad2 (T / 1000 % 86400 / 3600) ++ ':' :: pad2 (T / 1000 % 86400 % 3600 / 60)
        ++ ':' :: pad2 (T / 1000 % 86400 % 60) ++ '.' :: pad3 (T % 1000) := by
  have hcast : ((T * 1000 : ℕ) : ℚ) = (((T * 1000 : ℕ) : ℤ) : ℚ) := by push_cast; ring
  have hfloor : Int.floor ((T : ℚ) / 1000 * 1000000 + 1 / 2)
      = ((T * 1000 : ℕ) : ℤ) := by
    have hus : ((T : ℚ) / 1000 * 1000000 + 1 / 2)
        = (((T * 1000 : ℕ) : ℤ) : ℚ) + 1 / 2 := by push_cast; ring
    rw [hus, add_comm, Int.floor_add_int]
    norm_num
  have e1 : (((T * 1000 : ℕ) : ℤ) / 1000000 % 86400 / 3600).toNat
      = T / 1000 % 86400 / 3600 := by omega
  have e2 : (((T * 1000 : ℕ) : ℤ) / 1000000 % 86400 % 3600 / 60).toNat
      = T / 1000 % 86400 % 3600 / 60 := by omega
  have e3 : (((T * 1000 : ℕ) : ℤ) / 1000000 % 86400 % 60).toNat
      = T / 1000 % 86400 % 60 := by omega
  have e4 : (((T * 1000 : ℕ) : ℤ) % 1000000 / 1000).toNat = T % 1000 := by omega
  simp only [format_timestamp, hfloor, e1, e2, e3, e4]

/-- Evaluating the full parse-then-format pipeline on the canonical text of any
two-digit-fields timestamp: the hour field is folded through
`total seconds mod 86400`, which collapses hours of 24 and above. -/
theorem format_parse_mkTimestamp (h m s ms : Nat) (hh : h < 100) (hm : m < 100)
    (hs : s < 100) (hms : ms < 1000) :
    (parse_timestamp_to_seconds (mkTimestamp h m s ms)).map format_timestamp
      = some (mkTimestamp ((h * 3600 + m * 60 + s) % 86400 / 3600)
          ((h * 3600 + m * 60 + s) % 86400 % 3600 / 60)
          ((h * 3600 + m * 60 + s) % 86400 % 60) ms) := by
  rw [parse_mkTimestamp hh hm hs hms, Option.map_some']
  have hq : ((h * 3600 + m * 60 + s : ℚ) + (ms : ℚ) / 1000)
      = (((h * 3600 + m * 60 + s) * 1000 + ms : ℕ) : ℚ) / 1000 := by
    push_cast
    ring
  rw [hq, format_timestamp_of_ms]
  have e1 : ((h * 3600 + m * 60 + s) * 1000 + ms) / 1000 = h * 3600 + m * 60 + s := by
    omega
  have e4 : ((h * 3600 + m * 60 + s) * 1000 + ms) % 1000 = ms := by omega
  rw [e1, e4]
  rfl

/-- Claim C5, counterexample: `"24:00:00.000"` is a well-formed
`HH:MM:SS.mmm` timestamp (the parser's own regex accepts any two-digit hour
field up to `99`, and WebVTT itself allows hours ≥ 24), but
`format(parse(s))` yields `"00:00:00.000"` because `timedelta.seconds`
discards whole days, so the round-trip claimed for every valid timestamp
fails. -/
theorem C5_counterexample :
    (parse_timestamp_to_seconds (("24:00:00.000").toList)).map format_timestamp
      = some (("00:00:00.000").toList)
    ∧ ("00:00:00.000").toList ≠ ("24:00:00.000").toList := by
  constructor
  · rw [(by decide : ("24:00:00.000").toList = mkTimestamp 24 0 0 0)]
    rw [format_parse_mkTimestamp 24 0 0 0 (by omega) (by omega) (by omega) (by omega)]
    decide
  · decide

/-- Claim C5 (amended): for every valid `HH:MM:SS.mmm` timestamp whose hour
field is below 24 (minutes and seconds below 60, as VTT requires),
`format_timestamp (parse_timestamp_to_seconds s) = s` exactly, to millisecond
precision.  For hour fields of 24 and above the round-trip fails
(`C5_counterexample`). -/
theorem C5_roundtrip_below_24h (h m s ms : Nat) (hh : h < 24) (hm : m < 60)
    (hs : s < 60) (hms : ms < 1000) :
    (parse_timestamp_to_seconds (mkTimestamp h m s ms)).map format_timestamp
      = some (mkTimestamp h m s ms) := by
  rw [format_parse_mkTimestamp h m s ms (by omega) (by omega) (by omega) hms]
  have e1 : (h * 3600 + m * 60 + s) % 86400 / 3600 = h := by omega
  have e2 : (h * 3600 + m * 60 + s) % 86400 % 3600 / 60 = m := by omega
  have e3 : (h * 3600 + m * 60 + s) % 86400 % 60 = s := by omega
  rw [e1, e2, e3]

/-- Witness for `C5_roundtrip_below_24h` at the concrete timestamp
`"12:34:56.789"`. -/
theorem C5_roundtrip_witness :
    (parse_timestamp_to_seconds (("12:34:56.789").toList)).map format_timestamp
      = some (("12:34:56.789").toList) := by
  have base := C5_roundtrip_below_24h 12 34 56 789 (by decide) (by decide)
    (by decide) (by decide)
  have hmk : mkTimestamp 12 34 56 789 = ("12:34:56.789").toList := by decide
  rw [hmk] at base
  exact base

/-! ## Claim C1: the `[BLANK_AUDIO]` skip filter -/

/-- Claim C1 fails on the code: `parse_vtt_file` matches skip filters against
the *normalized* caption (`should_skip_content(normalized_content, …)`), and
normalization lowercases and deletes all punctuation, so the literal filter
`"[BLANK_AUDIO]"` — the repository's own default `SKIP_FILTERS` value — can
never be a substring of any normalized content (which contains no `[`, `_`,
`]`, nor uppercase).  At the failing input, a caption whose body text is
exactly `[BLANK_AUDIO]` with that literal configured as a skip filter, the
entry is kept (with content `"blankaudio"`) instead of being dropped, and
`should_skip_content` on the normalized caption returns `false`. -/
theorem C1_blank_audio_filter_ineffective :
    (parse_vtt_content (fun _ _ => false)
        (("WEBVTT\n\n00:00:01.000 --> 00:00:02.000\n[BLANK_AUDIO]\n").toList)
        (("alice").toList) (("false").toList) [("[BLANK_AUDIO]").toList]).map
          (fun e => e.content) = [("blankaudio").toList]
    ∧ should_skip_content (fun _ _ => false)
        (normalize_content (("[BLANK_AUDIO]").toList))
        [("[BLANK_AUDIO]").toList] = false := by
  constructor
  · decide
  · decide

/-! ## Claim C2: stored content is aggressively normalized -/

/-- Claim C2, counterexample: the caption body `Hello!` is stored as
`"hello"` — lowercased and with punctuation removed — not as the claimed
trim-and-collapse-only normalization, so letter case and punctuation are not
preserved. -/
theorem C2_counterexample :
    (parse_vtt_content (fun _ _ => false)
        (("WEBVTT\n\n00:00:01.000 --> 00:00:02.000\nHello!\n").toList)
        (("alice").toList) (("false").toList) []).map (fun e => e.content)
      = [("hello").toList]
    ∧ ("hello").toList ≠ ("Hello!").toList := by
  constructor
  · decide
  · decide

theorem parseVttLoop_content_shape (search : Str → Str → Bool)
    (character_name dedupe : Str) (skip_filters : List Str) :
    ∀ (fuel : Nat) (lines : List Str) (last_content : Option Str)
      (unique_contents : List Str),
      (parseVttLoop search character_name dedupe skip_filters fuel lines
          last_content unique_contents).Forall
        (fun e => e.content ≠ [] ∧ ∃ body : List Str, body ≠ []
          ∧ e.content = normalize_content (joinSpace body)) := by
  intro fuel
  induction fuel with
  | zero =>
      intro lines last_content unique_contents
      simp [parseVttLoop]
  | succ fuel ih =>
      intro lines last_content unique_contents
      cases lines with
      | nil => simp [parseVttLoop]
      | cons line rest =>
          rw [parseVttLoop]
          cases hm : matchTimeRegex (pstrip line) with
          | none => exact ih rest last_content unique_contents
          | some g =>
              obtain ⟨start_time_str, end_time_str⟩ := g
              by_cases hcl : ((rest.takeWhile fun ln => pstrip ln ≠ []).map pstrip) = []
              · simp only [hcl, if_pos rfl]
                exact ih _ last_content unique_contents
              · simp only [if_neg hcl]
                by_cases hsk : should_skip_content search
                    (normalize_content
                      (joinSpace ((rest.takeWhile fun ln => pstrip ln ≠ []).map pstrip)))
                    skip_filters = true
                · simp only [hsk, if_pos rfl]
                  exact ih _ last_content unique_contents
                · simp only [if_neg hsk]
                  by_cases hk : ¬ ((dedupe = ("consecutive").toList
                        ∧ last_content = some (normalize_content
                          (joinSpace ((rest.takeWhile fun ln => pstrip ln ≠ []).map pstrip))))
                      ∨ (dedupe = ("unique").toList
                        ∧ normalize_content
                            (joinSpace ((rest.takeWhile fun ln => pstrip ln ≠ []).map pstrip))
                          ∈ unique_contents))
                    ∧ normalize_content
                        (joinSpace ((rest.takeWhile fun ln => pstrip ln ≠ []).map pstrip)) ≠ []
                  · rw [if_pos hk]
                    rw [List.forall_cons]
                    exact ⟨⟨hk.2, _, hcl, rfl⟩, ih _ _ _⟩
                  · rw [if_neg hk]
                    exact ih _ last_content unique_contents

/-- Claim C2 (amended): every entry returned by the parser has non-empty
content equal to `normalize_content` of its body lines joined with single
spaces, where `normalize_content` strips the ends, lowercases, deletes all
`string.punctuation` characters, and collapses whitespace runs to single
spaces — i.e. the stored text is aggressively normalized, and letter case and
punctuation are *not* preserved (`C2_counterexample`). -/
theorem C2_content_is_normalized (search : Str → Str → Bool) (content : Str)
    (character_name dedupe : Str) (skip_filters : List Str) :
    (parse_vtt_content search content character_name dedupe skip_filters).Forall
      (fun e => e.content ≠ [] ∧ ∃ body : List Str, body ≠ []
        ∧ e.content = normalize_content (joinSpace body)) :=
  parseVttLoop_content_shape search character_name dedupe skip_filters _ _ none []

/-! ## Claim C7: per-source deduplication -/

/-- With a dedupe strategy that is neither `consecutive` nor `unique` (such as
the default `"false"`), the loop's dedup state is never consulted. -/
theorem parseVttLoop_state_irrelevant (search : Str → Str → Bool)
    (character_name dedupe : Str) (skip_filters : List Str)
    (hc : dedupe ≠ ("consecutive").toList) (hu : dedupe ≠ ("unique").toList) :
    ∀ (fuel : Nat) (lines : List Str) (last1 : Option Str) (uniq1 : List Str)
      (last2 : Option Str) (uniq2 : List Str),
      parseVttLoop search character_name dedupe skip_filters fuel lines last1 uniq1
        = parseVttLoop search character_name dedupe skip_filters fuel lines last2 uniq2 := by
  intro fuel
  induction fuel with
  | zero => intro lines last1 uniq1 last2 uniq2; rfl
  | succ fuel ih =>
      intro lines last1 uniq1 last2 uniq2
      cases lines with
      | nil => rfl
      | cons line rest =>
          rw [parseVttLoop, parseVttLoop]
          cases hm : matchTimeRegex (pstrip line) with
          | none => exact ih rest last1 uniq1 last2 uniq2
          | some g =>
              obtain ⟨start_time_str, end_time_str⟩ := g
              by_cases hcl : ((rest.takeWhile fun ln => pstrip ln ≠ []).map pstrip) = []
              · simp only [hcl, if_pos rfl]
                exact ih _ last1 uniq1 last2 uniq2
              · simp only [if_neg hcl]
                by_cases hsk : should_skip_content search
                    (normalize_content
                      (joinSpace ((rest.takeWhile fun ln => pstrip ln ≠ []).map pstrip)))
                    skip_filters = true
                · simp only [hsk, if_pos rfl]
                  exact ih _ last1 uniq1 last2 uniq2
                · simp only [if_neg hsk, hc, hu, false_and, or_self, not_false_iff,
                    true_and]
                  by_cases hne : normalize_content
                      (joinSpace ((rest.takeWhile fun ln => pstrip ln ≠ []).map pstrip)) ≠ []
                  · rw [if_pos hne, if_pos hne]
                    rw [ih _ _ _ (some _) (_ :: uniq2)]
                  · rw [if_neg hne, if_neg hne]
                    exact ih _ last1 uniq1 last2 uniq2

/-- Parsing with `dedupe="consecutive"` equals parsing with dedup disabled
followed by the spec-side destutter pass, from any starting state. -/
theorem parseVttLoop_consecutive (search : Str → Str → Bool)
    (character_name : Str) (skip_filters : List Str) :
    ∀ (fuel : Nat) (lines : List Str) (last_content : Option Str)
      (uniq1 uniq2 : List Str),
      parseVttLoop search character_name (("consecutive").toList) skip_filters
          fuel lines last_content uniq1
        = destutterContent
            (parseVttLoop search character_name (("false").toList) skip_filters
              fuel lines last_content uniq2) last_content := by
  intro fuel
  induction fuel with
  | zero => intro lines last_content uniq1 uniq2; rfl
  | succ fuel ih =>
      intro lines last_content uniq1 uniq2
      cases lines with
      | nil => rfl
      | cons line rest =>
          rw [parseVttLoop, parseVttLoop]
          cases hm : matchTimeRegex (pstrip line) with
          | none => exact ih rest last_content uniq1 uniq2
          | some g =>
              obtain ⟨start_time_str, end_time_str⟩ := g
              by_cases hcl : ((rest.takeWhile fun ln => pstrip ln ≠ []).map pstrip) = []
              · simp only [hcl, if_pos rfl]
                exact ih _ last_content uniq1 uniq2
              · simp only [if_neg hcl]
                by_cases hsk : should_skip_content search
                    (normalize_content
                      (joinSpace ((rest.takeWhile fun ln => pstrip ln ≠ []).map pstrip)))
                    skip_filters = true
                · simp only [hsk, if_pos rfl]
                  exact ih _ last_content uniq1 uniq2
                · simp only [if_neg hsk]
                  by_cases hne : normalize_content
                      (joinSpace ((rest.takeWhile fun ln => pstrip ln ≠ []).map pstrip)) ≠ []
                  · -- dedup disabled keeps the entry; `consecutive` keeps it iff
                    -- it differs from the last kept content
                    rw [if_pos (show
                      ¬ ((("false").toList = ("consecutive").toList
                            ∧ last_content = some (normalize_content
                              (joinSpace ((rest.takeWhile fun ln => pstrip ln ≠ []).map pstrip))))
                          ∨ (("false").toList = ("unique").toList
                            ∧ normalize_content
                                (joinSpace ((rest.takeWhile fun ln => pstrip ln ≠ []).map pstrip))
                              ∈ uniq2))
                        ∧ normalize_content
                            (joinSpace ((rest.takeWhile fun ln => pstrip ln ≠ []).map pstrip))
                          ≠ [] from by
                      refine ⟨?_, hne⟩
                      rintro (⟨he, _⟩ | ⟨he, _⟩)
                      · exact absurd he (by decide)
                      · exact absurd he (by decide))]
                    rw [destutterContent]
                    by_cases hlast : last_content = some (normalize_content
                        (joinSpace ((rest.takeWhile fun ln => pstrip ln ≠ []).map pstrip)))
                    · rw [if_neg (fun hand => hand.1 (Or.inl ⟨trivial, hlast⟩))]
                      rw [if_pos hlast]
                      rw [parseVttLoop_state_irrelevant search character_name _ skip_filters
                        (by decide) (by decide) fuel _ (some _) (_ :: uniq2) last_content uniq2]
                      exact ih _ last_content uniq1 uniq2
                    · rw [if_pos (show
                        ¬ ((True
                              ∧ last_content = some (normalize_content
                                (joinSpace ((rest.takeWhile fun ln => pstrip ln ≠ []).map pstrip))))
                            ∨ (("consecutive").toList = ("unique").toList
                              ∧ normalize_content
                                  (joinSpace ((rest.takeWhile fun ln => pstrip ln ≠ []).map pstrip))
                                ∈ uniq1))
                          ∧ normalize_content
                              (joinSpace ((rest.takeWhile fun ln => pstrip ln ≠ []).map pstrip))
                            ≠ [] from by
                        refine ⟨?_, hne⟩
                        rintro (⟨_, he⟩ | ⟨he, _⟩)
                        · exact hlast he
                        · exact absurd he (by decide))]
                      rw [if_neg hlast]
                      rw [parseVttLoop_state_irrelevant search character_name _ skip_filters
                        (by decide) (by decide) fuel _ (some _) (_ :: uniq2) (some _) uniq2]
                      exact congrArg _ (ih _ (some _) (_ :: uniq1) uniq2)
                  · rw [if_neg (fun hand => hne hand.2), if_neg (fun hand => hne hand.2)]
                    exact ih _ last_content uniq1 uniq2

/-- Parsing with `dedupe="unique"` equals parsing with dedup disabled followed
by the spec-side first-occurrence pass, from any starting state. -/
theorem parseVttLoop_unique (search : Str → Str → Bool)
    (character_name : Str) (skip_filters : List Str) :
    ∀ (fuel : Nat) (lines : List Str) (last1 : Option Str) (uniq : List Str)
      (last2 : Option Str) (uniq2 : List Str),
      parseVttLoop search character_name (("unique").toList) skip_filters
          fuel lines last1 uniq
        = uniqueContent
            (parseVttLoop search character_name (("false").toList) skip_filters
              fuel lines last2 uniq2) uniq := by
  intro fuel
  induction fuel with
  | zero => intro lines last1 uniq last2 uniq2; rfl
  | succ fuel ih =>
      intro lines last1 uniq last2 uniq2
      cases lines with
      | nil => rfl
      | cons line rest =>
          rw [parseVttLoop, parseVttLoop]
          cases hm : matchTimeRegex (pstrip line) with
          | none => exact ih rest last1 uniq last2 uniq2
          | some g =>
              obtain ⟨start_time_str, end_time_str⟩ := g
              by_cases hcl : ((rest.takeWhile fun ln => pstrip ln ≠ []).map pstrip) = []
              · simp only [hcl, if_pos rfl]
                exact ih _ last1 uniq last2 uniq2
              · simp only [if_neg hcl]
                by_cases hsk : should_skip_content search
                    (normalize_content
                      (joinSpace ((rest.takeWhile fun ln => pstrip ln ≠ []).map pstrip)))
                    skip_filters = true
                · simp only [hsk, if_pos rfl]
                  exact ih _ last1 uniq last2 uniq2
                · simp only [if_neg hsk]
                  by_cases hne : normalize_content
                      (joinSpace ((rest.takeWhile fun ln => pstrip ln ≠ []).map pstrip)) ≠ []
                  · rw [if_pos (show
                      ¬ ((("false").toList = ("consecutive").toList
                            ∧ last2 = some (normalize_content
                              (joinSpace ((rest.takeWhile fun ln => pstrip ln ≠ []).map pstrip))))
                          ∨ (("false").toList = ("unique").toList
                            ∧ normalize_content
                                (joinSpace ((rest.takeWhile fun ln => pstrip ln ≠ []).map pstrip))
                              ∈ uniq2))
                        ∧ normalize_content
                            (joinSpace ((rest.takeWhile fun ln => pstrip ln ≠ []).map pstrip))
                          ≠ [] from by
                      refine ⟨?_, hne⟩
                      rintro (⟨he, _⟩ | ⟨he, _⟩)
                      · exact absurd he (by decide)
                      · exact absurd he (by decide))]
                    rw [uniqueContent]
                    by_cases hmem : normalize_content
                        (joinSpace ((rest.takeWhile fun ln => pstrip ln ≠ []).map pstrip)) ∈ uniq
                    · rw [if_neg (fun hand => hand.1 (Or.inr ⟨trivial, hmem⟩))]
                      rw [if_pos hmem]
                      rw [parseVttLoop_state_irrelevant search character_name _ skip_filters
                        (by decide) (by decide) fuel _ (some _) (_ :: uniq2) last2 uniq2]
                      exact ih _ last1 uniq last2 uniq2
                    · rw [if_pos (show
                        ¬ ((("unique").toList = ("consecutive").toList
                              ∧ last1 = some (normalize_content
                                (joinSpace ((rest.takeWhile fun ln => pstrip ln ≠ []).map pstrip))))
                            ∨ (True
                              ∧ normalize_content
                                  (joinSpace ((rest.takeWhile fun ln => pstrip ln ≠ []).map pstrip))
                                ∈ uniq))
                          ∧ normalize_content
                              (joinSpace ((rest.takeWhile fun ln => pstrip ln ≠ []).map pstrip))
                            ≠ [] from by
                        refine ⟨?_, hne⟩
                        rintro (⟨he, _⟩ | ⟨_, hin⟩)
                        · exact absurd he (by decide)
                        · exact hmem hin)]
                      rw [if_neg hmem]
                      rw [parseVttLoop_state_irrelevant search character_name _ skip_filters
                        (by decide) (by decide) fuel _ (some _) (_ :: uniq2) last2 uniq2]
                      exact congrArg _ (ih _ (some _) (_ :: uniq) last2 uniq2)
                  · rw [if_neg (fun hand => hne hand.2), if_neg (fun hand => hne hand.2)]
                    exact ih _ last1 uniq last2 uniq2

/-- Claim C7: with `dedupe="consecutive"` a single source's entry is dropped
iff its normalized content equals that of the immediately preceding kept entry
(the parse equals the dedup-disabled parse followed by the spec-side destutter
pass), with `dedupe="unique"` iff its normalized content was already kept once
from that source (the first-occurrence pass); and the captions
`"Hello","Hello","Goodbye"` in one source yield exactly 2 surviving entries
under `consecutive`. -/
theorem C7_per_source_dedup (search : Str → Str → Bool) (content : Str)
    (character_name : Str) (skip_filters : List Str) :
    parse_vtt_content search content character_name (("consecutive").toList) skip_filters
      = destutterContent
          (parse_vtt_content search content character_name (("false").toList) skip_filters)
          none
    ∧ parse_vtt_content search content character_name (("unique").toList) skip_filters
      = uniqueContent
          (parse_vtt_content search content character_name (("false").toList) skip_filters)
          []
    ∧ (parse_vtt_content (fun _ _ => false)
        (("WEBVTT\n\n00:00:01.000 --> 00:00:02.000\nHello\n\n00:00:03.000 --> 00:00:04.000\nHello\n\n00:00:05.000 --> 00:00:06.000\nGoodbye\n").toList)
        (("alice").toList) (("consecutive").toList) []).length = 2 := by
  refine ⟨?_, ?_, ?_⟩
  · exact parseVttLoop_consecutive search character_name skip_filters _ _ none [] []
  · exact parseVttLoop_unique search character_name skip_filters _ _ none [] none []
  · decide

/-! ## Claim C6: merge sort and global dedup -/

theorem entryLE_trans : ∀ (a b c : TranscriptEntry),
    (fun a b : TranscriptEntry => decide (a.start_time ≤ b.start_time)) a b →
    (fun a b : TranscriptEntry => decide (a.start_time ≤ b.start_time)) b c →
    (fun a b : TranscriptEntry => decide (a.start_time ≤ b.start_time)) a c := by
  intro a b c hab hbc
  simp only [decide_eq_true_eq] at *
  exact le_trans hab hbc

theorem entryLE_total : ∀ (a b : TranscriptEntry),
    ((fun a b : TranscriptEntry => decide (a.start_time ≤ b.start_time)) a b
      || (fun a b : TranscriptEntry => decide (a.start_time ≤ b.start_time)) b a) = true := by
  intro a b
  simp only [Bool.or_eq_true, decide_eq_true_eq]
  exact le_total a.start_time b.start_time

/-- The survivors of the global dedup pass carrying a given key: none if the
key was already seen, else exactly the first input entry with that key. -/
theorem globalDedup_filter (k : Str × Str) :
    ∀ (l : List TranscriptEntry) (seen : List (Str × Str)),
      (globalDedup l seen).filter (fun e => decide (entryKey e = k))
        = if k ∈ seen then []
          else (l.filter (fun e => decide (entryKey e = k))).take 1 := by
  intro l
  induction l with
  | nil =>
      intro seen
      by_cases hks : k ∈ seen
      · simp [globalDedup, hks]
      · simp [globalDedup, hks]
  | cons e rest ih =>
      intro seen
      rw [globalDedup]
      by_cases hes : entryKey e ∈ seen
      · rw [if_pos hes, ih seen]
        by_cases hks : k ∈ seen
        · rw [if_pos hks, if_pos hks]
        · have hek : ¬ entryKey e = k := fun h => hks (h ▸ hes)
          rw [if_neg hks, if_neg hks, List.filter_cons, if_neg (by simp [hek])]
      · rw [if_neg hes]
        by_cases hek : entryKey e = k
        · have hks : ¬ k ∈ seen := fun h => hes (hek ▸ h)
          rw [List.filter_cons, if_pos (by simp [hek]), ih (entryKey e :: seen),
            if_pos (List.mem_cons.mpr (Or.inl hek.symm)), if_neg hks,
            List.filter_cons, if_pos (by simp [hek])]
          simp
        · rw [List.filter_cons, if_neg (by simp [hek]), ih (entryKey e :: seen)]
          by_cases hks : k ∈ seen
          · rw [if_pos (List.mem_cons_of_mem _ hks), if_pos hks]
          · rw [if_neg (fun h => (List.mem_cons.mp h).elim (fun he => hek he.symm) hks),
              if_neg hks, List.filter_cons, if_neg (by simp [hek])]

/-- Claim C6: in the sequence `combine_transcripts` produces after the stable
merge sort and the global dedup pass, each `(speaker, normalized content)` key
present in the input survives in exactly one entry — the first entry of the
sorted sequence with that key, which is minimal in start time among all input
entries with that key — and the sort is stable: entries sharing a start time
keep their source-then-parse order (filtering any start-time class out of the
sorted sequence returns it in input order). -/
theorem C6_global_dedup (entries : List TranscriptEntry) (k : Str × Str)
    (hk : ∃ e ∈ entries, entryKey e = k) :
    ((globalDedup (sortByStart entries) []).filter
        (fun e => decide (entryKey e = k))).length = 1
    ∧ (globalDedup (sortByStart entries) []).filter (fun e => decide (entryKey e = k))
        = ((sortByStart entries).filter (fun e => decide (entryKey e = k))).take 1
    ∧ (∀ s, s ∈ (globalDedup (sortByStart entries) []).filter
          (fun e => decide (entryKey e = k)) →
        s ∈ entries ∧ entryKey s = k
          ∧ ∀ e ∈ entries, entryKey e = k → s.start_time ≤ e.start_time)
    ∧ (∀ t : ℚ, (sortByStart entries).filter (fun e => decide (e.start_time = t))
        = entries.filter (fun e => decide (e.start_time = t))) := by
  have hperm : List.Perm (sortByStart entries) entries := by
    unfold sortByStart
    exact List.mergeSort_perm entries _
  have hsorted : (sortByStart entries).Pairwise
      (fun a b : TranscriptEntry => decide (a.start_time ≤ b.start_time)) := by
    unfold sortByStart
    exact List.sorted_mergeSort entryLE_trans entryLE_total entries
  have hfilterEq : (globalDedup (sortByStart entries) []).filter
      (fun e => decide (entryKey e = k))
      = ((sortByStart entries).filter (fun e => decide (entryKey e = k))).take 1 := by
    rw [globalDedup_filter k (sortByStart entries) [], if_neg (List.not_mem_nil k)]
  have hfne : (sortByStart entries).filter (fun e => decide (entryKey e = k)) ≠ [] := by
    obtain ⟨e, hel, hek⟩ := hk
    have hes : e ∈ sortByStart entries := hperm.mem_iff.mpr hel
    have hef : e ∈ (sortByStart entries).filter (fun x => decide (entryKey x = k)) :=
      List.mem_filter.mpr ⟨hes, by simp [hek]⟩
    intro h0
    rw [h0] at hef
    exact List.not_mem_nil e hef
  obtain ⟨a, tl, hf⟩ : ∃ a tl,
      (sortByStart entries).filter (fun e => decide (entryKey e = k)) = a :: tl := by
    cases hfc : (sortByStart entries).filter (fun e => decide (entryKey e = k)) with
    | nil => exact absurd hfc hfne
    | cons a tl => exact ⟨a, tl, rfl⟩
  have hlen : ((globalDedup (sortByStart entries) []).filter
      (fun e => decide (entryKey e = k))).length = 1 := by
    rw [hfilterEq, hf]
    rfl
  refine ⟨hlen, hfilterEq, ?_, ?_⟩
  · intro s hs
    rw [hfilterEq, hf] at hs
    have hsa : s = a := by
      simpa using hs
    subst hsa
    have haf : s ∈ (sortByStart entries).filter (fun e => decide (entryKey e = k)) := by
      rw [hf]
      exact List.mem_cons_self s tl
    have hasorted : s ∈ sortByStart entries := (List.mem_filter.mp haf).1
    have hakey : entryKey s = k := by
      have := (List.mem_filter.mp haf).2
      simpa using this
    refine ⟨hperm.mem_iff.mp hasorted, hakey, ?_⟩
    intro e he hek
    have hes : e ∈ sortByStart entries := hperm.mem_iff.mpr he
    have hef : e ∈ (sortByStart entries).filter (fun x => decide (entryKey x = k)) :=
      List.mem_filter.mpr ⟨hes, by simp [hek]⟩
    rw [hf] at hef
    rcases List.mem_cons.mp hef with he2 | he2
    · rw [he2]
    · have hpw : ((sortByStart entries).filter
          (fun e => decide (entryKey e = k))).Pairwise
          (fun a b : TranscriptEntry => decide (a.start_time ≤ b.start_time)) :=
        hsorted.sublist (List.filter_sublist _)
      rw [hf] at hpw
      have := List.rel_of_pairwise_cons hpw he2
      exact of_decide_eq_true this
  · intro t
    have hct : ∀ x ∈ entries.filter (fun e => decide (e.start_time = t)),
        x.start_time = t := by
      intro x hx
      have := (List.mem_filter.mp hx).2
      simpa using this
    have hcp : (entries.filter (fun e => decide (e.start_time = t))).Pairwise
        (fun a b : TranscriptEntry => decide (a.start_time ≤ b.start_time)) := by
      apply List.pairwise_of_forall_mem_list
      intro a ha b hb
      simp only [decide_eq_true_eq, hct a ha, hct b hb, le_refl]
    have hsub : List.Sublist (entries.filter (fun e => decide (e.start_time = t)))
        (sortByStart entries) := by
      unfold sortByStart
      exact List.sublist_mergeSort entryLE_trans entryLE_total hcp (List.filter_sublist entries)
    have hsub2 : List.Sublist (entries.filter (fun e => decide (e.start_time = t)))
        ((sortByStart entries).filter (fun e => decide (e.start_time = t))) := by
      have h1 := hsub.filter (fun e => decide (e.start_time = t))
      rwa [List.filter_eq_self.mpr (fun a ha => (List.mem_filter.mp ha).2)] at h1
    have hlenf : (entries.filter (fun e => decide (e.start_time = t))).length
        = ((sortByStart entries).filter (fun e => decide (e.start_time = t))).length :=
      ((hperm.filter _).length_eq).symm
    exact (hsub2.eq_of_length hlenf).symm

/-- Witness for `C6_global_dedup` on a one-entry source. -/
theorem C6_global_dedup_witness :
    ((globalDedup (sortByStart
        [(⟨("x").toList, 0, 1, ("alice").toList, ("hi").toList⟩ : TranscriptEntry)]) []).filter
      (fun e => decide (entryKey e
        = entryKey (⟨("x").toList, 0, 1, ("alice").toList, ("hi").toList⟩ : TranscriptEntry)))).length
      = 1 :=
  (C6_global_dedup _ _ ⟨_, List.mem_cons_self _ _, rfl⟩).1

/-! ## Claim C3: chunking -/

/-- The chunk slices tile the whole entry list: every chunk takes `size`
entries from its offset and the last chunk takes the remainder, so their
concatenation is the input, for any positive chunk count and any size. -/
theorem chunkSlices_flatten (size : Nat) :
    ∀ (actual : Nat) (l : List TranscriptEntry), 1 ≤ actual →
      ((List.range actual).map (chunkSlice l size actual)).flatten = l := by
  intro actual
  induction actual with
  | zero => intro l h; exact absurd h (by decide)
  | succ a ih =>
      intro l _
      rw [List.range_succ_eq_map]
      cases Nat.eq_zero_or_pos a with
      | inl ha0 =>
          subst ha0
          simp [chunkSlice]
      | inr hapos =>
          have hstep : ∀ i ∈ List.range a,
              chunkSlice l size (a + 1) (i + 1) = chunkSlice (l.drop size) size a i := by
            intro i hi
            unfold chunkSlice
            by_cases hlt : i < a - 1
            · rw [if_pos (by omega), if_pos hlt, List.drop_drop]
              congr 2
              ring
            · rw [if_neg (by omega), if_neg hlt, List.drop_drop]
              congr 1
              ring
          have hhead : chunkSlice l size (a + 1) 0 = l.take size := by
            unfold chunkSlice
            rw [if_pos (by omega)]
            simp
          rw [List.map_cons, List.map_map, List.flatten_cons, hhead]
          have : (List.range a).map (chunkSlice l size (a + 1) ∘ Nat.succ)
              = (List.range a).map (chunkSlice (l.drop size) size a) :=
            List.map_congr_left fun i hi => hstep i hi
          rw [this, ih (l.drop size) hapos, List.take_append_drop]

/-- Keys pairwise distinct means the global dedup pass keeps everything. -/
theorem globalDedup_eq_self :
    ∀ (l : List TranscriptEntry), (l.map entryKey).Nodup →
      ∀ (seen : List (Str × Str)), (∀ e ∈ l, entryKey e ∉ seen) →
        globalDedup l seen = l := by
  intro l
  induction l with
  | nil => intro _ seen _; rfl
  | cons e rest ih =>
      intro h seen hseen
      rw [List.map_cons] at h
      obtain ⟨hknotin, htail⟩ := List.nodup_cons.mp h
      rw [globalDedup, if_neg (hseen e (List.mem_cons_self e rest))]
      congr 1
      refine ih htail (entryKey e :: seen) ?_
      intro x hx hmem
      rcases List.mem_cons.mp hmem with hx2 | hx2
      · exact hknotin (hx2 ▸ List.mem_map_of_mem entryKey hx)
      · exact hseen x (List.mem_cons_of_mem e hx) hx2

/-- On a successful parse, `combine_transcripts` computes exactly the chunking
pipeline of the source (sort, dedup, chunk arithmetic, render). -/
theorem combine_transcripts_ok (search : Str → Str → Bool) (fs : FS)
    (transcript_configs : List TranscriptConfig) (output_path dedupe : Str)
    (skip_filters : List Str) (include_timestamps : Bool) (chunks : Nat)
    (all_entries : List TranscriptEntry)
    (hp : parseAllConfigs search fs dedupe skip_filters transcript_configs
      = .ok all_entries) :
    combine_transcripts search fs transcript_configs output_path dedupe
        skip_filters include_timestamps chunks
      = (let deduped := globalDedup (sortByStart all_entries) []
         let summary := mkSummary transcript_configs
         let actual_chunks := if deduped.length < chunks ∨ deduped.length < 5 then 1 else chunks
         let chunk_size := deduped.length / actual_chunks
         let files := (List.range actual_chunks).map fun idx =>
           (chunkPath output_path actual_chunks idx,
             renderChunk summary include_timestamps
               (chunkSlice deduped chunk_size actual_chunks idx))
         (files, .ok (files.map Prod.fst))) := by
  unfold combine_transcripts
  rw [hp]

/-- The number of files `combine_transcripts` writes on a successful parse. -/
theorem combine_transcripts_chunk_count (search : Str → Str → Bool) (fs : FS)
    (transcript_configs : List TranscriptConfig) (output_path dedupe : Str)
    (skip_filters : List Str) (include_timestamps : Bool) (chunks : Nat)
    (all_entries : List TranscriptEntry)
    (hp : parseAllConfigs search fs dedupe skip_filters transcript_configs
      = .ok all_entries) :
    (combine_transcripts search fs transcript_configs output_path dedupe
        skip_filters include_timestamps chunks).1.length
      = if (globalDedup (sortByStart all_entries) []).length < chunks
          ∨ (globalDedup (sortByStart all_entries) []).length < 5
        then 1 else chunks := by
  rw [combine_transcripts_ok search fs transcript_configs output_path dedupe
    skip_filters include_timestamps chunks all_entries hp]
  simp

/-- Claim C3 fails on the code: with 12 surviving entries and 3 requested
chunks the requested count exceeds `surviving/minimum = 12/5`, so the claim
demands a single forced chunk; the code's condition is only
`surviving < chunks or surviving < 5`, so it writes all 3 chunks (each of 4
entries, below the claimed minimum of 5 per chunk). -/
theorem C3_counterexample :
    (globalDedup (sortByStart (parse_vtt_content (fun _ _ => false)
        (("WEBVTT\n\n00:00:01.000 --> 00:00:01.500\naa\n\n00:00:02.000 --> 00:00:02.500\nbb\n\n00:00:03.000 --> 00:00:03.500\ncc\n\n00:00:04.000 --> 00:00:04.500\ndd\n\n00:00:05.000 --> 00:00:05.500\nee\n\n00:00:06.000 --> 00:00:06.500\nff\n\n00:00:07.000 --> 00:00:07.500\ngg\n\n00:00:08.000 --> 00:00:08.500\nhh\n\n00:00:09.000 --> 00:00:09.500\nii\n\n00:00:10.000 --> 00:00:10.500\njj\n\n00:00:11.000 --> 00:00:11.500\nkk\n\n00:00:12.000 --> 00:00:12.500\nll\n").toList)
        (("alice").toList) (("false").toList) [])) []).length = 12
    ∧ (combine_transcripts (fun _ _ => false)
        [((("a.vtt").toList), (("WEBVTT\n\n00:00:01.000 --> 00:00:01.500\naa\n\n00:00:02.000 --> 00:00:02.500\nbb\n\n00:00:03.000 --> 00:00:03.500\ncc\n\n00:00:04.000 --> 00:00:04.500\ndd\n\n00:00:05.000 --> 00:00:05.500\nee\n\n00:00:06.000 --> 00:00:06.500\nff\n\n00:00:07.000 --> 00:00:07.500\ngg\n\n00:00:08.000 --> 00:00:08.500\nhh\n\n00:00:09.000 --> 00:00:09.500\nii\n\n00:00:10.000 --> 00:00:10.500\njj\n\n00:00:11.000 --> 00:00:11.500\nkk\n\n00:00:12.000 --> 00:00:12.500\nll\n").toList))]
        [(⟨("p").toList, ("Player").toList, ("alice").toList, ("d").toList,
          ("a.vtt").toList⟩ : TranscriptConfig)]
        (("out.txt").toList) (("false").toList) [] false 3).1.length = 3 := by
  have hkeys : ((parse_vtt_content (fun _ _ => false)
      (("WEBVTT\n\n00:00:01.000 --> 00:00:01.500\naa\n\n00:00:02.000 --> 00:00:02.500\nbb\n\n00:00:03.000 --> 00:00:03.500\ncc\n\n00:00:04.000 --> 00:00:04.500\ndd\n\n00:00:05.000 --> 00:00:05.500\nee\n\n00:00:06.000 --> 00:00:06.500\nff\n\n00:00:07.000 --> 00:00:07.500\ngg\n\n00:00:08.000 --> 00:00:08.500\nhh\n\n00:00:09.000 --> 00:00:09.500\nii\n\n00:00:10.000 --> 00:00:10.500\njj\n\n00:00:11.000 --> 00:00:11.500\nkk\n\n00:00:12.000 --> 00:00:12.500\nll\n").toList)
      (("alice").toList) (("false").toList) []).map entryKey).Nodup := by decide
  have hperm : List.Perm (sortByStart (parse_vtt_content (fun _ _ => false)
      (("WEBVTT\n\n00:00:01.000 --> 00:00:01.500\naa\n\n00:00:02.000 --> 00:00:02.500\nbb\n\n00:00:03.000 --> 00:00:03.500\ncc\n\n00:00:04.000 --> 00:00:04.500\ndd\n\n00:00:05.000 --> 00:00:05.500\nee\n\n00:00:06.000 --> 00:00:06.500\nff\n\n00:00:07.000 --> 00:00:07.500\ngg\n\n00:00:08.000 --> 00:00:08.500\nhh\n\n00:00:09.000 --> 00:00:09.500\nii\n\n00:00:10.000 --> 00:00:10.500\njj\n\n00:00:11.000 --> 00:00:11.500\nkk\n\n00:00:12.000 --> 00:00:12.500\nll\n").toList)
      (("alice").toList) (("false").toList) []))
      (parse_vtt_content (fun _ _ => false)
      (("WEBVTT\n\n00:00:01.000 --> 00:00:01.500\naa\n\n00:00:02.000 --> 00:00:02.500\nbb\n\n00:00:03.000 --> 00:00:03.500\ncc\n\n00:00:04.000 --> 00:00:04.500\ndd\n\n00:00:05.000 --> 00:00:05.500\nee\n\n00:00:06.000 --> 00:00:06.500\nff\n\n00:00:07.000 --> 00:00:07.500\ngg\n\n00:00:08.000 --> 00:00:08.500\nhh\n\n00:00:09.000 --> 00:00:09.500\nii\n\n00:00:10.000 --> 00:00:10.500\njj\n\n00:00:11.000 --> 00:00:11.500\nkk\n\n00:00:12.000 --> 00:00:12.500\nll\n").toList)
      (("alice").toList) (("false").toList) []) := by
    unfold sortByStart
    exact List.mergeSort_perm _ _
  have hkeys2 : ((sortByStart (parse_vtt_content (fun _ _ => false)
      (("WEBVTT\n\n00:00:01.000 --> 00:00:01.500\naa\n\n00:00:02.000 --> 00:00:02.500\nbb\n\n00:00:03.000 --> 00:00:03.500\ncc\n\n00:00:04.000 --> 00:00:04.500\ndd\n\n00:00:05.000 --> 00:00:05.500\nee\n\n00:00:06.000 --> 00:00:06.500\nff\n\n00:00:07.000 --> 00:00:07.500\ngg\n\n00:00:08.000 --> 00:00:08.500\nhh\n\n00:00:09.000 --> 00:00:09.500\nii\n\n00:00:10.000 --> 00:00:10.500\njj\n\n00:00:11.000 --> 00:00:11.500\nkk\n\n00:00:12.000 --> 00:00:12.500\nll\n").toList)
      (("alice").toList) (("false").toList) [])).map entryKey).Nodup :=
    ((hperm.map entryKey).nodup_iff).mpr hkeys
  have hself := globalDedup_eq_self _ hkeys2 [] (fun _ _ h => List.not_mem_nil _ h)
  have hn : (globalDedup (sortByStart (parse_vtt_content (fun _ _ => false)
      (("WEBVTT\n\n00:00:01.000 --> 00:00:01.500\naa\n\n00:00:02.000 --> 00:00:02.500\nbb\n\n00:00:03.000 --> 00:00:03.500\ncc\n\n00:00:04.000 --> 00:00:04.500\ndd\n\n00:00:05.000 --> 00:00:05.500\nee\n\n00:00:06.000 --> 00:00:06.500\nff\n\n00:00:07.000 --> 00:00:07.500\ngg\n\n00:00:08.000 --> 00:00:08.500\nhh\n\n00:00:09.000 --> 00:00:09.500\nii\n\n00:00:10.000 --> 00:00:10.500\njj\n\n00:00:11.000 --> 00:00:11.500\nkk\n\n00:00:12.000 --> 00:00:12.500\nll\n").toList)
      (("alice").toList) (("false").toList) [])) []).length = 12 := by
    rw [hself, hperm.length_eq]
    decide
  refine ⟨hn, ?_⟩
  have hp : parseAllConfigs (fun _ _ => false)
      [((("a.vtt").toList), (("WEBVTT\n\n00:00:01.000 --> 00:00:01.500\naa\n\n00:00:02.000 --> 00:00:02.500\nbb\n\n00:00:03.000 --> 00:00:03.500\ncc\n\n00:00:04.000 --> 00:00:04.500\ndd\n\n00:00:05.000 --> 00:00:05.500\nee\n\n00:00:06.000 --> 00:00:06.500\nff\n\n00:00:07.000 --> 00:00:07.500\ngg\n\n00:00:08.000 --> 00:00:08.500\nhh\n\n00:00:09.000 --> 00:00:09.500\nii\n\n00:00:10.000 --> 00:00:10.500\njj\n\n00:00:11.000 --> 00:00:11.500\nkk\n\n00:00:12.000 --> 00:00:12.500\nll\n").toList))]
      (("false").toList) []
      [(⟨("p").toList, ("Player").toList, ("alice").toList, ("d").toList,
        ("a.vtt").toList⟩ : TranscriptConfig)]
      = .ok (parse_vtt_content (fun _ _ => false)
          (("WEBVTT\n\n00:00:01.000 --> 00:00:01.500\naa\n\n00:00:02.000 --> 00:00:02.500\nbb\n\n00:00:03.000 --> 00:00:03.500\ncc\n\n00:00:04.000 --> 00:00:04.500\ndd\n\n00:00:05.000 --> 00:00:05.500\nee\n\n00:00:06.000 --> 00:00:06.500\nff\n\n00:00:07.000 --> 00:00:07.500\ngg\n\n00:00:08.000 --> 00:00:08.500\nhh\n\n00:00:09.000 --> 00:00:09.500\nii\n\n00:00:10.000 --> 00:00:10.500\njj\n\n00:00:11.000 --> 00:00:11.500\nkk\n\n00:00:12.000 --> 00:00:12.500\nll\n").toList)
          (("alice").toList) (("false").toList) []) := rfl
  rw [combine_transcripts_chunk_count _ _ _ _ _ _ _ _ _ hp]
  rw [hn]
  norm_num

/-- Claim C3 (amended): on a successful parse with at least one requested
chunk, `combine_transcripts` writes a single output chunk exactly when the
surviving-entry count is below the minimum-viable threshold of 5 *or below the
requested chunk count*; in every other case it writes exactly the requested
number of contiguous chunks (their entry slices concatenate back to the full
deduplicated sequence).  The claimed condition `requested > surviving/minimum`
is not the one the code tests (`C3_counterexample`). -/
theorem C3_chunking (search : Str → Str → Bool) (fs : FS)
    (transcript_configs : List TranscriptConfig) (output_path dedupe : Str)
    (skip_filters : List Str) (include_timestamps : Bool) (chunks : Nat)
    (all_entries : List TranscriptEntry)
    (hp : parseAllConfigs search fs dedupe skip_filters transcript_configs
      = .ok all_entries)
    (hc : 1 ≤ chunks) :
    (combine_transcripts search fs transcript_configs output_path dedupe
        skip_filters include_timestamps chunks).1.length
      = (if (globalDedup (sortByStart all_entries) []).length < chunks
          ∨ (globalDedup (sortByStart all_entries) []).length < 5
        then 1 else chunks)
    ∧ ((List.range (if (globalDedup (sortByStart all_entries) []).length < chunks
          ∨ (globalDedup (sortByStart all_entries) []).length < 5
        then 1 else chunks)).map
        (chunkSlice (globalDedup (sortByStart all_entries) [])
          ((globalDedup (sortByStart all_entries) []).length
            / (if (globalDedup (sortByStart all_entries) []).length < chunks
                ∨ (globalDedup (sortByStart all_entries) []).length < 5
              then 1 else chunks))
          (if (globalDedup (sortByStart all_entries) []).length < chunks
              ∨ (globalDedup (sortByStart all_entries) []).length < 5
            then 1 else chunks))).flatten
      = globalDedup (sortByStart all_entries) [] := by
  constructor
  · exact combine_transcripts_chunk_count search fs transcript_configs output_path
      dedupe skip_filters include_timestamps chunks all_entries hp
  · apply chunkSlices_flatten
    by_cases hcase : (globalDedup (sortByStart all_entries) []).length < chunks
        ∨ (globalDedup (sortByStart all_entries) []).length < 5
    · rw [if_pos hcase]
    · rw [if_neg hcase]
      exact hc

/-- Witness for `C3_chunking` with no sources and one requested chunk. -/
theorem C3_chunking_witness :
    (combine_transcripts (fun _ _ => false) [] [] (("out.txt").toList)
        (("false").toList) [] false 1).1.length
      = (if (globalDedup (sortByStart []) []).length < 1
          ∨ (globalDedup (sortByStart []) []).length < 5
        then 1 else 1) :=
  (C3_chunking (fun _ _ => false) [] [] (("out.txt").toList) (("false").toList)
    [] false 1 [] rfl (by decide)).1

/-! ## Claim C8: fail-fast before any write -/

/-- A missing source file makes the parse loop raise (whichever config fails
first raises; the given one guarantees some failure). -/
theorem parseAllConfigs_error_of_missing (search : Str → Str → Bool) (fs : FS)
    (dedupe : Str) (skip_filters : List Str) :
    ∀ (configs : List TranscriptConfig) (c : TranscriptConfig), c ∈ configs →
      fsRead fs c.transcript_path = none →
      ∃ msg, parseAllConfigs search fs dedupe skip_filters configs = .error msg := by
  intro configs
  induction configs with
  | nil => intro c hc; exact absurd hc (List.not_mem_nil c)
  | cons c0 rest ih =>
      intro c hc hmiss
      rw [parseAllConfigs]
      rcases List.mem_cons.mp hc with he | he
      · subst he
        unfold parse_vtt_file
        rw [hmiss]
        exact ⟨_, rfl⟩
      · cases hp0 : parse_vtt_file search fs c0.transcript_path c0.character_name
            dedupe skip_filters with
        | error e => exact ⟨e, rfl⟩
        | ok entries =>
            obtain ⟨msg, hmsg⟩ := ih c he hmiss
            rw [hmsg]
            exact ⟨msg, rfl⟩

/-- A directory name matching more than one configured username aborts the
config-building loop with a `CombineError`. -/
theorem buildConfigs_error_of_ambiguous (mapping : List (Str × SpeakerMeta)) :
    ∀ (vtts : List VttFile) (v : VttFile), v ∈ vtts →
      1 < (mapping.filter fun m => decide (m.1 <:+: v.parent)).length →
      ∃ msg, buildConfigs mapping vtts = .error msg := by
  intro vtts
  induction vtts with
  | nil => intro v hv; exact absurd hv (List.not_mem_nil v)
  | cons v0 rest ih =>
      intro v hv hamb
      rw [buildConfigs]
      rcases List.mem_cons.mp hv with he | he
      · subst he
        rw [if_neg (by omega), if_pos hamb]
        exact ⟨_, rfl⟩
      · obtain ⟨msg, hmsg⟩ := ih v he hamb
        by_cases h0 : (mapping.filter fun m => decide (m.1 <:+: v0.parent)).length = 0
        · rw [if_pos h0, hmsg]
          exact ⟨msg, rfl⟩
        · rw [if_neg h0]
          by_cases h1 : (mapping.filter fun m => decide (m.1 <:+: v0.parent)).length > 1
          · rw [if_pos h1]
            exact ⟨_, rfl⟩
          · rw [if_neg h1]
            cases hm : mapping.filter fun m => decide (m.1 <:+: v0.parent) with
            | nil => exact ⟨[], rfl⟩
            | cons m ms =>
                rw [hmsg]
                exact ⟨msg, rfl⟩

/-- Claim C8: a missing configured source file makes `combine_transcripts`
raise `CombineError` with an empty write trace (all parsing precedes all
writing), and a VTT directory name matching more than one configured username
makes `combine_transcripts_from_env` raise before calling the combine step —
in both cases no output file is created or written. -/
theorem C8_failfast :
    (∀ (search : Str → Str → Bool) (fs : FS) (configs : List TranscriptConfig)
        (output_path dedupe : Str) (skip_filters : List Str)
        (include_timestamps : Bool) (chunks : Nat) (c : TranscriptConfig),
      c ∈ configs → fsRead fs c.transcript_path = none →
        (combine_transcripts search fs configs output_path dedupe skip_filters
            include_timestamps chunks).1 = []
        ∧ ∃ msg, (combine_transcripts search fs configs output_path dedupe
            skip_filters include_timestamps chunks).2 = .error msg)
    ∧ (∀ (search : Str → Str → Bool) (env : Env) (fuel : Nat) (fs : FS)
        (vtt_files : List VttFile) (output_dir session_name : Str) (v : VttFile),
      v ∈ vtt_files →
      1 < ((buildUsernameMapping env fuel 1 []).filter
          fun m => decide (m.1 <:+: v.parent)).length →
        (combine_transcripts_from_env search env fuel fs vtt_files output_dir
            session_name).1 = []
        ∧ ∃ msg, (combine_transcripts_from_env search env fuel fs vtt_files
            output_dir session_name).2 = .error msg) := by
  constructor
  · intro search fs configs output_path dedupe skip_filters include_timestamps
      chunks c hc hmiss
    obtain ⟨msg, hmsg⟩ := parseAllConfigs_error_of_missing search fs dedupe
      skip_filters configs c hc hmiss
    unfold combine_transcripts
    rw [hmsg]
    exact ⟨rfl, msg, rfl⟩
  · intro search env fuel fs vtt_files output_dir session_name v hv hamb
    unfold combine_transcripts_from_env
    rw [if_neg (show ¬ vtt_files = [] from fun h0 => by
      subst h0
      exact List.not_mem_nil v hv)]
    by_cases hmap : buildUsernameMapping env fuel 1 [] = []
    · rw [if_pos hmap]
      exact ⟨rfl, _, rfl⟩
    · rw [if_neg hmap]
      obtain ⟨msg, hmsg⟩ := buildConfigs_error_of_ambiguous
        (buildUsernameMapping env fuel 1 []) vtt_files v hv hamb
      rw [hmsg]
      exact ⟨rfl, msg, rfl⟩

/-- Witness for `C8_failfast`: a config whose file is absent from an empty
filesystem, and an environment where usernames `"a"` and `"al"` both match the
directory `"alice"`. -/
theorem C8_failfast_witness :
    ((combine_transcripts (fun _ _ => false) []
        [(⟨("p").toList, ("r").toList, ("c").toList, ("d").toList,
          ("missing.vtt").toList⟩ : TranscriptConfig)]
        (("o").toList) (("false").toList) [] false 1).1 = []
      ∧ ∃ msg, (combine_transcripts (fun _ _ => false) []
        [(⟨("p").toList, ("r").toList, ("c").toList, ("d").toList,
          ("missing.vtt").toList⟩ : TranscriptConfig)]
        (("o").toList) (("false").toList) [] false 1).2 = .error msg)
    ∧ ((combine_transcripts_from_env (fun _ _ => false)
        [((("TRANSCRIPT_1_USERNAME").toList), (("a").toList)),
         ((("TRANSCRIPT_1_PLAYER").toList), (("p1").toList)),
         ((("TRANSCRIPT_1_ROLE").toList), (("r1").toList)),
         ((("TRANSCRIPT_1_CHARACTER").toList), (("c1").toList)),
         ((("TRANSCRIPT_1_DESCRIPTION").toList), (("d1").toList)),
         ((("TRANSCRIPT_2_USERNAME").toList), (("al").toList)),
         ((("TRANSCRIPT_2_PLAYER").toList), (("p2").toList)),
         ((("TRANSCRIPT_2_ROLE").toList), (("r2").toList)),
         ((("TRANSCRIPT_2_CHARACTER").toList), (("c2").toList)),
         ((("TRANSCRIPT_2_DESCRIPTION").toList), (("d2").toList))]
        3 [] [⟨("alice").toList, ("f.vtt").toList⟩]
        (("o").toList) (("s").toList)).1 = []
      ∧ ∃ msg, (combine_transcripts_from_env (fun _ _ => false)
        [((("TRANSCRIPT_1_USERNAME").toList), (("a").toList)),
         ((("TRANSCRIPT_1_PLAYER").toList), (("p1").toList)),
         ((("TRANSCRIPT_1_ROLE").toList), (("r1").toList)),
         ((("TRANSCRIPT_1_CHARACTER").toList), (("c1").toList)),
         ((("TRANSCRIPT_1_DESCRIPTION").toList), (("d1").toList)),
         ((("TRANSCRIPT_2_USERNAME").toList), (("al").toList)),
         ((("TRANSCRIPT_2_PLAYER").toList), (("p2").toList)),
         ((("TRANSCRIPT_2_ROLE").toList), (("r2").toList)),
         ((("TRANSCRIPT_2_CHARACTER").toList), (("c2").toList)),
         ((("TRANSCRIPT_2_DESCRIPTION").toList), (("d2").toList))]
        3 [] [⟨("alice").toList, ("f.vtt").toList⟩]
        (("o").toList) (("s").toList)).2 = .error msg) :=
  ⟨C8_failfast.1 (fun _ _ => false) [] _ (("o").toList) (("false").toList) []
      false 1 _ (List.mem_cons_self _ _) rfl,
    C8_failfast.2 (fun _ _ => false) _ 3 [] _ (("o").toList) (("s").toList) _
      (List.mem_cons_self _ _) (by decide)⟩

/-! ## Claim C9: worker fault isolation and exit code -/

/-- The final per-file statuses of a batch run (definitional projection). -/
theorem runBatch_statuses (pipeline : Str → Except Str Unit) (files : List Str)
    (combine_exit : Nat) :
    (runBatch pipeline files combine_exit).1
      = (files.map (worker pipeline)).map (fun r => (r.1, r.2.1)) := rfl

/-- The exit code of a batch run (definitional projection). -/
theorem runBatch_exit (pipeline : Str → Except Str Unit) (files : List Str)
    (combine_exit : Nat) :
    (runBatch pipeline files combine_exit).2.2
      = if ((files.map (worker pipeline)).filter
            (fun r => decide (r.2.1 = ("error").toList))).map
            (fun r => (r.1, r.2.2)) ≠ []
        then 1 else combine_exit := rfl

/-- Claim C9: a worker converts a pipeline failure into a
`(filename, "error", message)` tuple and a success into
`(filename, "done", "")` — never letting the exception escape (the worker is a
total function); the orchestrator's final status map records every file with
exactly its own outcome, so one file's error touches no other file's status
and all files are processed to completion; and the exit code is 1 whenever at
least one file failed. -/
theorem C9_worker_fault_isolation (pipeline : Str → Except Str Unit)
    (files : List Str) (combine_exit : Nat) :
    (∀ f e, pipeline f = .error e →
      worker pipeline f = (baseName f, ("error").toList, e))
    ∧ (∀ f, pipeline f = .ok () →
      worker pipeline f = (baseName f, ("done").toList, []))
    ∧ (runBatch pipeline files combine_exit).1
        = files.map (fun f => (baseName f,
            match pipeline f with
            | .ok _ => ("done").toList
            | .error _ => ("error").toList))
    ∧ ((∃ f ∈ files, ∃ e, pipeline f = .error e) →
        (runBatch pipeline files combine_exit).2.2 = 1) := by
  refine ⟨?_, ?_, ?_, ?_⟩
  · intro f e he
    unfold worker
    rw [he]
  · intro f he
    unfold worker
    rw [he]
  · rw [runBatch_statuses, List.map_map]
    apply List.map_congr_left
    intro f _
    cases hp : pipeline f <;> simp [worker, hp]
  · rintro ⟨f, hf, e, he⟩
    have hw : worker pipeline f = (baseName f, ("error").toList, e) := by
      unfold worker
      rw [he]
    have hmemf : worker pipeline f ∈ (files.map (worker pipeline)).filter
        (fun r => decide (r.2.1 = ("error").toList)) :=
      List.mem_filter.mpr ⟨List.mem_map_of_mem _ hf, by rw [hw]; simp⟩
    rw [runBatch_exit, if_pos]
    intro h0
    exact List.ne_nil_of_mem hmemf (List.map_eq_nil_iff.mp h0)

/-- Witness for `C9_worker_fault_isolation`: two files, the second failing. -/
theorem C9_worker_fault_isolation_witness :
    (runBatch (fun f => if f = ("bad").toList
        then .error (("boom").toList) else .ok ())
      [("good").toList, ("bad").toList] 0).2.2 = 1 :=
  (C9_worker_fault_isolation (fun f => if f = ("bad").toList
        then .error (("boom").toList) else .ok ())
      [("good").toList, ("bad").toList] 0).2.2.2
    ⟨("bad").toList, by decide, ("boom").toList, rfl⟩

/-! ## Claim C10: the indexed environment scan stops at the first gap -/

/-- Once the scan reaches an index with an empty username it returns the
accumulator unchanged, for any fuel. -/
theorem buildUsernameMapping_stop (env : Env) (i : Nat)
    (acc : List (Str × SpeakerMeta))
    (hstop : getTranscriptVar env i (("USERNAME").toList) = []) :
    ∀ fuel, buildUsernameMapping env fuel i acc = acc := by
  intro fuel
  cases fuel with
  | zero => rfl
  | succ fuel =>
      rw [buildUsernameMapping, if_pos hstop]

/-- Past an index whose username is empty, the scan's result does not depend
on the fuel: both runs stop at or before that index. -/
theorem buildUsernameMapping_stable (env : Env) :
    ∀ (d i fuel1 fuel2 : Nat) (acc : List (Str × SpeakerMeta)),
      getTranscriptVar env (i + d) (("USERNAME").toList) = [] →
      d ≤ fuel1 → d ≤ fuel2 →
      buildUsernameMapping env fuel1 i acc = buildUsernameMapping env fuel2 i acc := by
  intro d
  induction d with
  | zero =>
      intro i fuel1 fuel2 acc hstop _ _
      rw [buildUsernameMapping_stop env i acc hstop fuel1,
        buildUsernameMapping_stop env i acc hstop fuel2]
  | succ d ih =>
      intro i fuel1 fuel2 acc hstop h1 h2
      cases fuel1 with
      | zero => exact absurd h1 (by omega)
      | succ f1 =>
          cases fuel2 with
          | zero => exact absurd h2 (by omega)
          | succ f2 =>
              rw [buildUsernameMapping, buildUsernameMapping]
              by_cases hu : getTranscriptVar env i (("USERNAME").toList) = []
              · rw [if_pos hu, if_pos hu]
              · rw [if_neg hu, if_neg hu]
                exact ih (i + 1) f1 f2 _
                  (by rw [show i + 1 + d = i + (d + 1) from by ring]; exact hstop)
                  (by omega) (by omega)

/-- A key of a `dict` after insertion is the inserted key or one of the
existing keys. -/
theorem dictInsert_mem :
    ∀ (d : List (Str × SpeakerMeta)) (k : Str) (v : SpeakerMeta) (u : Str)
      (m : SpeakerMeta), (u, m) ∈ dictInsert k v d →
      u = k ∨ ∃ m2, (u, m2) ∈ d := by
  intro d
  induction d with
  | nil =>
      intro k v u m h
      rcases List.mem_cons.mp h with he | he
      · exact Or.inl (congrArg Prod.fst he)
      · exact absurd he (List.not_mem_nil _)
  | cons e rest ih =>
      intro k v u m h
      rw [dictInsert] at h
      by_cases hek : e.1 = k
      · rw [if_pos hek] at h
        rcases List.mem_cons.mp h with he | he
        · exact Or.inl (congrArg Prod.fst he)
        · exact Or.inr ⟨m, List.mem_cons_of_mem e he⟩
      · rw [if_neg hek] at h
        rcases List.mem_cons.mp h with he | he
        · exact Or.inr ⟨m, he ▸ List.mem_cons_self e rest⟩
        · rcases ih k v u m he with hl | ⟨m2, hm2⟩
          · exact Or.inl hl
          · exact Or.inr ⟨m2, List.mem_cons_of_mem e hm2⟩

/-- Every entry of the scanned mapping comes from an index in the scanned
window whose username matches and is reached without passing any empty
username. -/
theorem buildUsernameMapping_mem (env : Env) :
    ∀ (fuel i : Nat) (acc : List (Str × SpeakerMeta)) (u : Str) (m : SpeakerMeta),
      (u, m) ∈ buildUsernameMapping env fuel i acc →
      (∃ m2, (u, m2) ∈ acc)
      ∨ ∃ idx, i ≤ idx ∧ idx < i + fuel
          ∧ getTranscriptVar env idx (("USERNAME").toList) = u
          ∧ ∀ d2, i ≤ d2 → d2 ≤ idx →
              getTranscriptVar env d2 (("USERNAME").toList) ≠ [] := by
  intro fuel
  induction fuel with
  | zero =>
      intro i acc u m h
      exact Or.inl ⟨m, h⟩
  | succ fuel ih =>
      intro i acc u m h
      rw [buildUsernameMapping] at h
      by_cases hu : getTranscriptVar env i (("USERNAME").toList) = []
      · rw [if_pos hu] at h
        exact Or.inl ⟨m, h⟩
      · rw [if_neg hu] at h
        rcases ih (i + 1) _ u m h with hacc2 | ⟨idx, hi1, hi2, hnm, hall⟩
        · obtain ⟨m2, hm2⟩ := hacc2
          by_cases hcomplete : getTranscriptVar env i (("PLAYER").toList) ≠ []
              ∧ getTranscriptVar env i (("ROLE").toList) ≠ []
              ∧ getTranscriptVar env i (("CHARACTER").toList) ≠ []
              ∧ getTranscriptVar env i (("DESCRIPTION").toList) ≠ []
          · rw [if_pos hcomplete] at hm2
            rcases dictInsert_mem acc _ _ u m2 hm2 with he | ⟨m3, hm3⟩
            · refine Or.inr ⟨i, le_refl i, by omega, he ▸ rfl, ?_⟩
              intro d2 hd1 hd2
              have : d2 = i := by omega
              rw [this]
              exact hu
            · exact Or.inl ⟨m3, hm3⟩
          · rw [if_neg hcomplete] at hm2
            exact Or.inl ⟨m2, hm2⟩
        · refine Or.inr ⟨idx, by omega, by omega, hnm, ?_⟩
          intro d2 hd1 hd2
          by_cases hdi : d2 = i
          · rw [hdi]
            exact hu
          · exact hall d2 (by omega) hd2

/-- Claim C10: the scan over `TRANSCRIPT_1_USERNAME, TRANSCRIPT_2_USERNAME, …`
stops at the first index whose (stripped) username is unset or empty: the
result equals the scan truncated before that index, and every username in the
resulting mapping comes from some index strictly below it — configurations
defined at higher indices after the gap are silently ignored. -/
theorem C10_env_scan_stops_at_gap (env : Env) (j fuel : Nat)
    (hj1 : 1 ≤ j) (hstop : getTranscriptVar env j (("USERNAME").toList) = [])
    (hfuel : j - 1 ≤ fuel) :
    buildUsernameMapping env fuel 1 [] = buildUsernameMapping env (j - 1) 1 []
    ∧ ∀ u m, (u, m) ∈ buildUsernameMapping env fuel 1 [] →
        ∃ i, 1 ≤ i ∧ i < j ∧ getTranscriptVar env i (("USERNAME").toList) = u := by
  have hstop1 : getTranscriptVar env (1 + (j - 1)) (("USERNAME").toList) = [] := by
    rw [show 1 + (j - 1) = j from by omega]
    exact hstop
  constructor
  · exact buildUsernameMapping_stable env (j - 1) 1 fuel (j - 1) [] hstop1 hfuel
      (le_refl _)
  · intro u m h
    rcases buildUsernameMapping_mem env fuel 1 [] u m h with ⟨m2, hm2⟩ | hidx
    · exact absurd hm2 (List.not_mem_nil _)
    · obtain ⟨idx, hi1, _, hnm, hall⟩ := hidx
      refine ⟨idx, hi1, ?_, hnm⟩
      by_contra hge
      exact hall j hj1 (by omega) hstop

/-- Witness for `C10_env_scan_stops_at_gap`: index 1 is configured, index 2 is
absent, index 3 is configured but ignored. -/
theorem C10_env_scan_witness :
    buildUsernameMapping
      [((("TRANSCRIPT_1_USERNAME").toList), (("alice").toList)),
       ((("TRANSCRIPT_1_PLAYER").toList), (("p1").toList)),
       ((("TRANSCRIPT_1_ROLE").toList), (("r1").toList)),
       ((("TRANSCRIPT_1_CHARACTER").toList), (("c1").toList)),
       ((("TRANSCRIPT_1_DESCRIPTION").toList), (("d1").toList)),
       ((("TRANSCRIPT_3_USERNAME").toList), (("carol").toList)),
       ((("TRANSCRIPT_3_PLAYER").toList), (("p3").toList)),
       ((("TRANSCRIPT_3_ROLE").toList), (("r3").toList)),
       ((("TRANSCRIPT_3_CHARACTER").toList), (("c3").toList)),
       ((("TRANSCRIPT_3_DESCRIPTION").toList), (("d3").toList))] 5 1 []
    = buildUsernameMapping
      [((("TRANSCRIPT_1_USERNAME").toList), (("alice").toList)),
       ((("TRANSCRIPT_1_PLAYER").toList), (("p1").toList)),
       ((("TRANSCRIPT_1_ROLE").toList), (("r1").toList)),
       ((("TRANSCRIPT_1_CHARACTER").toList), (("c1").toList)),
       ((("TRANSCRIPT_1_DESCRIPTION").toList), (("d1").toList)),
       ((("TRANSCRIPT_3_USERNAME").toList), (("carol").toList)),
       ((("TRANSCRIPT_3_PLAYER").toList), (("p3").toList)),
       ((("TRANSCRIPT_3_ROLE").toList), (("r3").toList)),
       ((("TRANSCRIPT_3_CHARACTER").toList), (("c3").toList)),
       ((("TRANSCRIPT_3_DESCRIPTION").toList), (("d3").toList))] 1 1 [] :=
  (C10_env_scan_stops_at_gap _ 2 5 (by decide) (by decide) (by decide)).1

/-! ## Claim C4: per-segment failure tolerance -/

/-- The accumulation loop of `transcribe_audio_segments`: successes are
concatenated in order and each failure appends one warning, independently of
the accumulator. -/
theorem transcribe_foldl (transcriber : Str × ℚ → Except Str (List WhisperSeg)) :
    ∀ (segments : List (Str × ℚ)) (acc : List WhisperSeg × List Str),
      segments.foldl
        (fun acc seg =>
          match transcriber seg with
          | .ok res => (acc.1 ++ res, acc.2)
          | .error e => (acc.1, acc.2 ++ [e]))
        acc
      = (acc.1 ++ (segments.filterMap fun s => (transcriber s).toOption).flatten,
         acc.2 ++ segments.filterMap fun s =>
           match transcriber s with
           | .ok _ => none
           | .error e => some e) := by
  intro segments
  induction segments with
  | nil => intro acc; simp
  | cons s rest ih =>
      intro acc
      rw [List.foldl_cons]
      cases hs : transcriber s with
      | ok res =>
          rw [ih]
          simp [List.filterMap_cons, hs, Except.toOption, List.append_assoc]
      | error e =>
          rw [ih]
          simp [List.filterMap_cons, hs, Except.toOption, List.append_assoc]

/-- Claim C4: the claim's per-segment tolerance is exactly what
`whisper.transcribe_audio_segments` does in isolation — an exception on one
segment becomes one recorded warning and the loop continues, the result being
all successful segments' outputs sorted by start (first conjunct) — but the
pipeline never reaches that loop: the call at `transcribe.py:164` passes a
`progress_callback` keyword that `whisper.transcribe_audio_segments` does not
accept, so it raises `TypeError` (re-raised as `TranscriptionError`) whenever
at least one segment file exists, and `TranscriptionError` is also raised when
none exists; hence the file's terminal status is `"error"` for every engine,
every set of segment files and every mapping (second conjunct) — the claimed
skip-with-warning-and-proceed behaviour is unreachable from the pipeline, and
a file can never complete at this step. -/
theorem C4_progress_callback_crash :
    (∀ (transcriber : Str × ℚ → Except Str (List WhisperSeg))
        (segments : List (Str × ℚ)),
      (transcribe_audio_segments transcriber segments).1
        = ((segments.filterMap fun s => (transcriber s).toOption).flatten).mergeSort
            (fun a b => decide (a.start ≤ b.start))
      ∧ (transcribe_audio_segments transcriber segments).2
        = segments.filterMap fun s =>
            match transcriber s with
            | .ok _ => none
            | .error e => some e)
    ∧ (∀ (transcriber : Str × ℚ → Except Str (List WhisperSeg))
        (segment_exists : Str → Bool) (mapping : List MappingSeg),
      singleFileStatus transcriber segment_exists mapping = ("error").toList) := by
  constructor
  · intro transcriber segments
    unfold transcribe_audio_segments
    rw [transcribe_foldl]
    constructor
    · simp
    · simp
  · intro transcriber segment_exists mapping
    unfold singleFileStatus transcribe_audio_phase
    by_cases hf : ((mapping.filter fun s => segment_exists s.segment_file).map
        fun s => (s.segment_file, s.start_seconds)) = []
    · rw [if_pos hf]
    · rw [if_neg hf]

end Combobulator